import Mathlib

/-!
Verification of the call-orchestration core of the messaging/calling backend.

The definitions below are a shallow embedding of the Python sources:
  app/services/call_service.py      (CallService: initiate/answer/decline/end/invite)
  app/services/websocket_manager.py (ConnectionManager)
  app/api/v1/websocket_signaling.py (handle_signaling_message)

User ids, call ids and websocket handles are modelled as Nat, timestamps as a
Nat clock passed explicitly to each operation (the code stamps
datetime.now(timezone.utc)), and a raised HTTPException is modelled as the
error branch of Except: the service raises before committing, so an error
leaves the stored call unchanged, which the embedding renders by returning no
new state in the error case.
-/

namespace CallBackend

/-- Participant role, the role column of call_participants. -/
inductive Role where
  | initiator
  | participant
deriving DecidableEq, Repr

/-- Participant status, the status column of call_participants. -/
inductive PStatus where
  | ringing
  | joined
  | left
  | declined
  | missed
deriving DecidableEq, Repr

/-- Call status, the status column of calls. -/
inductive CStatus where
  | ringing
  | active
  | ended
  | missed
  | declined
  | failed
  | cancelled
deriving DecidableEq, Repr

/-- Terminal call statuses: every status other than ringing and active. -/
def CStatus.isTerminal : CStatus → Bool
  | .ringing => false
  | .active => false
  | _ => true

/-- Call mode: the strings "1-on-1" and "group" in the source. -/
inductive CallMode where
  | oneOnOne
  | group
deriving DecidableEq, Repr

/-- One row of call_participants (the fields the call logic reads or writes). -/
structure CallParticipant where
  user_id : Nat
  role : Role
  status : PStatus
  invited_at : Nat
  joined_at : Option Nat := none
  left_at : Option Nat := none
  is_muted : Bool := false
  is_video_enabled : Bool := false
deriving DecidableEq, Repr

/-- One row of calls, with its loaded participants list. -/
structure Call where
  initiator_id : Nat
  call_type : String
  call_mode : CallMode
  status : CStatus
  max_participants : Option Nat
  started_at : Nat
  ended_at : Option Nat := none
  ended_by : Option Nat := none
  end_reason : Option String := none
  participants : List CallParticipant
deriving DecidableEq, Repr

/-- One row of call_invitations as created by invite_to_call. -/
structure CallInvitation where
  invited_user_id : Nat
  invited_by : Nat
  status : String
  invited_at : Nat
  expires_at : Nat
deriving DecidableEq, Repr

/-- Errors raised (as HTTPException) by CallService operations. -/
inductive CallError where
  | cannotCallSelf
  | participantsNotFound
  | alreadyInActiveCall (userId : Nat)
  | callNotFound
  | cannotJoinStatus (s : CStatus)
  | notAParticipant
  | cannotAnswerStatus (s : PStatus)
  | canOnlyDeclineRinging
  | canOnlyInviteGroupCalls
  | canOnlyInviteActiveCalls
  | onlyActiveParticipantsCanInvite
  | exceedsMaxParticipants (m : Nat)
  | usersNotFound
deriving DecidableEq, Repr

/-- The database environment initiate_call and invite_to_call query: the users
table as (id, is_active) rows, and the existing calls (used by the
active-1-on-1-call-between-two-users conflict query). -/
structure CallDb where
  users : List (Nat × Bool)
  calls : List Call
deriving Repr

/-- Membership test of the users-table query: a row with this id exists and
is_active is true. -/
def isActiveUser (db : CallDb) (uid : Nat) : Bool :=
  db.users.any (fun u => u.1 == uid && u.2)

/-- The query of CallService.get_active_call_between_users: some stored call
is ringing or active, is 1-on-1, and has exactly two participant rows whose
user_id is one of the two given users (GROUP BY call HAVING COUNT = 2). -/
def activeCallBetween (db : CallDb) (u1 u2 : Nat) : Bool :=
  db.calls.any (fun c =>
    (c.status == CStatus.ringing || c.status == CStatus.active) &&
    c.call_mode == CallMode.oneOnOne &&
    (c.participants.filter (fun p => p.user_id == u1 || p.user_id == u2)).length == 2)

/-- The participant lookup used by every action:
next(p for p in call.participants if p.user_id == user_id). -/
def findParticipant (c : Call) (uid : Nat) : Option CallParticipant :=
  c.participants.find? (fun p => p.user_id == uid)

/-- Mutating the participant object found by findParticipant: rewrite the
first row with the given user_id, leave the rest alone. -/
def updateFirst (uid : Nat) (f : CallParticipant → CallParticipant) :
    List CallParticipant → List CallParticipant
  | [] => []
  | p :: ps =>
    if p.user_id == uid then f p :: ps else p :: updateFirst uid f ps

/-- The loop of CallService.initiate_call that rejects when some listed
participant is already in a ringing/active 1-on-1 call with the initiator;
returns the first conflicting participant id. -/
def findConflict (db : CallDb) (initiatorId : Nat) : List Nat → Option Nat
  | [] => none
  | pid :: rest =>
    if activeCallBetween db initiatorId pid then some pid
    else findConflict db initiatorId rest

/-- CallService.initiate_call. Checks self-call, that the count of matching
active user rows equals the length of participant_ids, and the
already-in-active-call conflict; then creates the ringing call with the
self-joined initiator row and one ringing row per listed participant. -/
def initiateCall (db : CallDb) (initiatorId : Nat) (participantIds : List Nat)
    (callType : String) (maxParticipants : Option Nat) (now : Nat) :
    Except CallError Call :=
  if participantIds.contains initiatorId then
    .error .cannotCallSelf
  else if (db.users.filter (fun u => participantIds.contains u.1 && u.2)).length
      != participantIds.length then
    .error .participantsNotFound
  else
    match findConflict db initiatorId participantIds with
    | some pid => .error (.alreadyInActiveCall pid)
    | none =>
      let callMode := if participantIds.length > 1 then CallMode.group else CallMode.oneOnOne
      .ok {
        initiator_id := initiatorId
        call_type := callType
        call_mode := callMode
        status := .ringing
        max_participants := if callMode == CallMode.group then maxParticipants else none
        started_at := now
        participants :=
          { user_id := initiatorId, role := .initiator, status := .joined,
            invited_at := now, joined_at := some now,
            is_video_enabled := callType == "video" } ::
          participantIds.map (fun pid =>
            { user_id := pid, role := .participant, status := .ringing,
              invited_at := now, is_video_enabled := callType == "video" })
      }

/-- CallService.answer_call on a call that was found in the database. -/
def answerCall (call : Call) (userId : Nat) (now : Nat) : Except CallError Call :=
  if call.status != CStatus.ringing && call.status != CStatus.active then
    .error (.cannotJoinStatus call.status)
  else
    match findParticipant call userId with
    | none => .error .notAParticipant
    | some p =>
      if p.status != PStatus.ringing then
        .error (.cannotAnswerStatus p.status)
      else
        .ok { call with
          participants :=
            updateFirst userId
              (fun q => { q with status := .joined, joined_at := some now })
              call.participants
          status := if call.status == CStatus.ringing then CStatus.active else call.status }

/-- CallService.answer_call including the initial database lookup: a missing
call is rejected with the not-found error. -/
def answerCallDb (db : Option Call) (userId : Nat) (now : Nat) : Except CallError Call :=
  match db with
  | none => .error .callNotFound
  | some call => answerCall call userId now

/-- The all-declined test of the group branch of decline_call: every row with
role participant has status declined or missed. -/
def allNonInitiatorsDeclined (ps : List CallParticipant) : Bool :=
  ps.all (fun p =>
    if p.role == Role.participant then
      p.status == PStatus.declined || p.status == PStatus.missed
    else true)

/-- CallService.decline_call. The participant must be ringing; 1-on-1 calls
are ended as declined with ended_at, ended_by and end_reason all set; a group
call becomes declined with reason all_declined only when every role
participant row is declined or missed after this decline. -/
def declineCall (call : Call) (userId : Nat) (reason : String) (now : Nat) :
    Except CallError Call :=
  match findParticipant call userId with
  | none => .error .notAParticipant
  | some p =>
    if p.status != PStatus.ringing then
      .error .canOnlyDeclineRinging
    else
      let parts := updateFirst userId (fun q => { q with status := .declined }) call.participants
      match call.call_mode with
      | .oneOnOne =>
        .ok { call with
          participants := parts
          status := .declined
          ended_at := some now
          ended_by := some userId
          end_reason := some reason }
      | .group =>
        if allNonInitiatorsDeclined parts then
          .ok { call with
            participants := parts
            status := .declined
            ended_at := some now
            end_reason := some "all_declined" }
        else
          .ok { call with participants := parts }

/-- CallService.end_call. The caller's row goes joined to left; a 1-on-1 call
always ends (forcing the other joined side to left); a group call ends with
reason all_left only when no other participant is still joined. -/
def endCall (call : Call) (userId : Nat) (reason : String) (now : Nat) :
    Except CallError Call :=
  match findParticipant call userId with
  | none => .error .notAParticipant
  | some p =>
    let parts :=
      if p.status == PStatus.joined then
        updateFirst userId (fun q => { q with status := .left, left_at := some now })
          call.participants
      else call.participants
    match call.call_mode with
    | .oneOnOne =>
      .ok { call with
        participants := parts.map (fun q =>
          if q.user_id != userId && q.status == PStatus.joined then
            { q with status := .left, left_at := some now }
          else q)
        status := .ended
        ended_at := some now
        ended_by := some userId
        end_reason := some reason }
    | .group =>
      if parts.any (fun q => q.status == PStatus.joined && q.user_id != userId) then
        .ok { call with participants := parts }
      else
        .ok { call with
          participants := parts
          status := .ended
          ended_at := some now
          ended_by := some userId
          end_reason := some "all_left" }

/-- CallService.invite_to_call. Group and active only, inviter must be a
joined participant; a truthy max_participants bounds the row count plus the
new ids; invited ids must all be active users; ids already present as
participants are skipped; each new id gets a ringing participant row and a
pending invitation expiring two minutes later. -/
def inviteToCall (db : CallDb) (call : Call) (inviterId : Nat) (userIds : List Nat)
    (now : Nat) : Except CallError (Call × List CallInvitation) :=
  if call.call_mode != CallMode.group then
    .error .canOnlyInviteGroupCalls
  else if call.status != CStatus.active then
    .error .canOnlyInviteActiveCalls
  else
    match findParticipant call inviterId with
    | none => .error .onlyActiveParticipantsCanInvite
    | some ip =>
      if ip.status != PStatus.joined then
        .error .onlyActiveParticipantsCanInvite
      else if (match call.max_participants with
          | some m => m != 0 && call.participants.length + userIds.length > m
          | none => false) then
        .error (.exceedsMaxParticipants (call.max_participants.getD 0))
      else if (db.users.filter (fun u => userIds.contains u.1 && u.2)).length
          != userIds.length then
        .error .usersNotFound
      else
        let fresh := userIds.filter (fun uid =>
          !(call.participants.any (fun p => p.user_id == uid)))
        .ok ({ call with
            participants := call.participants ++ fresh.map (fun uid =>
              { user_id := uid, role := .participant, status := .ringing,
                invited_at := now,
                is_video_enabled := call.call_type == "video" }) },
          fresh.map (fun uid =>
            { invited_user_id := uid, invited_by := inviterId, status := "pending",
              invited_at := now, expires_at := now + 120 }))

/-! Helper lemmas about the participant-list update. -/

theorem updateFirst_find?_self (uid : Nat) (f : CallParticipant → CallParticipant)
    (hf : ∀ p, (f p).user_id = p.user_id) (ps : List CallParticipant) :
    (updateFirst uid f ps).find? (fun q => q.user_id == uid)
      = (ps.find? (fun q => q.user_id == uid)).map f := by
  induction ps with
  | nil => rfl
  | cons p ps ih =>
    by_cases h : p.user_id = uid
    · rw [updateFirst, if_pos (by simp [h])]
      rw [List.find?_cons_of_pos _ (by simp [hf, h]),
        List.find?_cons_of_pos _ (by simp [h]), Option.map_some']
    · rw [updateFirst, if_neg (by simp [h])]
      rw [List.find?_cons_of_neg _ (by simp [h]), List.find?_cons_of_neg _ (by simp [h]), ih]

theorem updateFirst_find?_other (uid v : Nat) (hne : v ≠ uid)
    (f : CallParticipant → CallParticipant) (hf : ∀ p, (f p).user_id = p.user_id)
    (ps : List CallParticipant) :
    (updateFirst uid f ps).find? (fun q => q.user_id == v)
      = ps.find? (fun q => q.user_id == v) := by
  induction ps with
  | nil => rfl
  | cons p ps ih =>
    by_cases h : p.user_id = uid
    · rw [updateFirst, if_pos (by simp [h])]
      rw [List.find?_cons_of_neg _ (by simp [hf, h]; exact fun hv => hne (Eq.symm hv)),
        List.find?_cons_of_neg _ (by simp [h]; exact fun hv => hne (Eq.symm hv))]
    · rw [updateFirst, if_neg (by simp [h])]
      by_cases hv : p.user_id = v
      · rw [List.find?_cons_of_pos _ (by simp [hv]), List.find?_cons_of_pos _ (by simp [hv])]
      · rw [List.find?_cons_of_neg _ (by simp [hv]), List.find?_cons_of_neg _ (by simp [hv]), ih]

theorem updateFirst_mem (uid : Nat) (f : CallParticipant → CallParticipant)
    (ps : List CallParticipant) (q : CallParticipant) (hq : q ∈ updateFirst uid f ps) :
    q ∈ ps ∨ ∃ r ∈ ps, r.user_id = uid ∧ q = f r := by
  induction ps with
  | nil => simp [updateFirst] at hq
  | cons p ps ih =>
    rw [updateFirst] at hq
    by_cases h : p.user_id = uid
    · rw [if_pos (by simp [h])] at hq
      rcases List.mem_cons.mp hq with h1 | h1
      · exact Or.inr ⟨p, List.mem_cons_self p ps, h, h1⟩
      · exact Or.inl (List.mem_cons_of_mem p h1)
    · rw [if_neg (by simp [h])] at hq
      rcases List.mem_cons.mp hq with h1 | h1
      · exact Or.inl (h1 ▸ List.mem_cons_self p ps)
      · rcases ih h1 with h2 | ⟨r, hr, hru, hrq⟩
        · exact Or.inl (List.mem_cons_of_mem p h2)
        · exact Or.inr ⟨r, List.mem_cons_of_mem p hr, hru, hrq⟩

/-- A row of another user passes through updateFirst unchanged. -/
theorem updateFirst_mem_of_ne (uid : Nat) (f : CallParticipant → CallParticipant)
    (ps : List CallParticipant) (q : CallParticipant) (hq : q ∈ ps)
    (hne : q.user_id ≠ uid) : q ∈ updateFirst uid f ps := by
  induction ps with
  | nil => cases hq
  | cons p ps ih =>
    rw [updateFirst]
    by_cases h : (p.user_id == uid) = true
    · rw [if_pos h]
      rcases List.mem_cons.mp hq with rfl | hq2
      · exact absurd (by simpa using h) hne
      · exact List.mem_cons_of_mem _ hq2
    · rw [if_neg h]
      rcases List.mem_cons.mp hq with rfl | hq2
      · exact List.mem_cons_self _ _
      · exact List.mem_cons_of_mem _ (ih hq2)

/-- A used-everywhere fact: an other-user predicate is unaffected by updating
the caller's own row, because updateFirst rewrites only rows carrying the
given user_id and f preserves user_id. -/
theorem updateFirst_any_other (uid : Nat) (f : CallParticipant → CallParticipant)
    (hf : ∀ p, (f p).user_id = p.user_id) (pred : CallParticipant → Bool)
    (ps : List CallParticipant) :
    ((updateFirst uid f ps).any (fun q => pred q && q.user_id != uid))
      = (ps.any (fun q => pred q && q.user_id != uid)) := by
  induction ps with
  | nil => rfl
  | cons p ps ih =>
    rw [updateFirst]
    by_cases h : p.user_id = uid
    · rw [if_pos (by simp [h])]
      simp [List.any_cons, hf, h]
    · rw [if_neg (by simp [h])]
      simp only [List.any_cons, ih]

/-!
Claim C1. The claim asserts that the 1-on-1 decline path sets only ended_by
and ended_at and leaves Call.end_reason null. The source
(call_service.py line 249) also assigns call.end_reason = reason, so the
claim is refuted; the amended statement has all three end fields set.
-/

/-- A 1-on-1 ringing call: user 0 initiated and is joined, user 1 is ringing. -/
def c1Call : Call :=
  { initiator_id := 0
    call_type := "audio"
    call_mode := .oneOnOne
    status := .ringing
    max_participants := none
    started_at := 0
    participants :=
      [ { user_id := 0, role := .initiator, status := .joined, invited_at := 0,
          joined_at := some 0 },
        { user_id := 1, role := .participant, status := .ringing, invited_at := 0 } ] }

/-- Claim C1, counterexample: on a 1-on-1 call with the callee ringing, the
claim's preconditions hold, yet decline_call leaves end_reason equal to the
passed reason, not null. -/
theorem c1_end_reason_not_null_cex :
    c1Call.call_mode = CallMode.oneOnOne ∧
    (findParticipant c1Call 1).map CallParticipant.status = some PStatus.ringing ∧
    (declineCall c1Call 1 "declined" 5).map Call.end_reason = Except.ok (some "declined") ∧
    some "declined" ≠ (none : Option String) := by
  refine ⟨rfl, rfl, rfl, by simp⟩

/-- Claim C1, amended: for every 1-on-1 call with a ringing participant,
decline sets that participant to declined and the call to declined with
ended_at set, ended_by the declining user, and end_reason set to the given
reason (not left null). -/
theorem c1_decline_oneOnOne_amended (call : Call) (uid : Nat) (reason : String)
    (now : Nat) (p : CallParticipant)
    (hmode : call.call_mode = CallMode.oneOnOne)
    (hfind : findParticipant call uid = some p)
    (hring : p.status = PStatus.ringing) :
    ∃ c', declineCall call uid reason now = .ok c' ∧
      c'.status = CStatus.declined ∧
      c'.ended_at = some now ∧
      c'.ended_by = some uid ∧
      c'.end_reason = some reason ∧
      findParticipant c' uid = some { p with status := PStatus.declined } := by
  simp only [declineCall, hfind, hring, hmode, bne_self_eq_false, Bool.false_eq_true,
    if_false]
  refine ⟨_, rfl, rfl, rfl, rfl, rfl, ?_⟩
  show findParticipant _ uid = _
  rw [findParticipant]
  show (updateFirst uid _ call.participants).find? _ = _
  rw [updateFirst_find?_self uid (fun q => { q with status := PStatus.declined })
      (fun _ => rfl),
    show call.participants.find? (fun q => q.user_id == uid) = some p from hfind]
  rfl

/-- Claim C1, witness: the amended theorem applied to the concrete call. -/
theorem c1_decline_oneOnOne_witness :
    ∃ c', declineCall c1Call 1 "busy" 5 = .ok c' ∧
      c'.status = CStatus.declined ∧
      c'.ended_at = some 5 ∧
      c'.ended_by = some 1 ∧
      c'.end_reason = some "busy" ∧
      findParticipant c' 1 = some
        { user_id := 1, role := .participant, status := PStatus.declined, invited_at := 0 } := by
  exact c1_decline_oneOnOne_amended c1Call 1 "busy" 5
    { user_id := 1, role := .participant, status := .ringing, invited_at := 0 }
    rfl rfl rfl

/-!
Claim C4: answer_call on a ringing/active call whose caller is a ringing
participant joins that participant, stamps joined_at, and promotes the call
to active; every other configuration is rejected with the matching error and
(the transaction never committing) leaves call and participants unchanged,
which the Except embedding renders by producing no updated call.
-/

/-- Claim C4: the full case analysis of answer_call, errors and effect. -/
theorem c4_answer_call (db : Option Call) (uid now : Nat) :
    (db = none → answerCallDb db uid now = .error .callNotFound) ∧
    (∀ call, db = some call → call.status ≠ CStatus.ringing → call.status ≠ CStatus.active →
      answerCallDb db uid now = .error (.cannotJoinStatus call.status)) ∧
    (∀ call, db = some call → (call.status = CStatus.ringing ∨ call.status = CStatus.active) →
      findParticipant call uid = none →
      answerCallDb db uid now = .error .notAParticipant) ∧
    (∀ call p, db = some call →
      (call.status = CStatus.ringing ∨ call.status = CStatus.active) →
      findParticipant call uid = some p → p.status ≠ PStatus.ringing →
      answerCallDb db uid now = .error (.cannotAnswerStatus p.status)) ∧
    (∀ call p, db = some call →
      (call.status = CStatus.ringing ∨ call.status = CStatus.active) →
      findParticipant call uid = some p → p.status = PStatus.ringing →
      ∃ c', answerCallDb db uid now = .ok c' ∧
        findParticipant c' uid
          = some { p with status := PStatus.joined, joined_at := some now } ∧
        c'.status = CStatus.active ∧
        (∀ v, v ≠ uid → findParticipant c' v = findParticipant call v) ∧
        c'.ended_at = call.ended_at ∧ c'.ended_by = call.ended_by ∧
        c'.end_reason = call.end_reason ∧ c'.call_mode = call.call_mode) := by
  refine ⟨?_, ?_, ?_, ?_, ?_⟩
  · rintro rfl; rfl
  · rintro call rfl h1 h2
    show answerCall call uid now = _
    rw [answerCall, if_pos (by simp [bne_iff_ne, h1, h2])]
  · rintro call rfl hst hnone
    show answerCall call uid now = _
    have hcond : (call.status != CStatus.ringing && call.status != CStatus.active) = false := by
      rcases hst with h | h <;> simp [h]
    rw [answerCall, hcond, if_neg (by simp), hnone]
  · rintro call p rfl hst hfind hp
    show answerCall call uid now = _
    have hcond : (call.status != CStatus.ringing && call.status != CStatus.active) = false := by
      rcases hst with h | h <;> simp [h]
    rw [answerCall, hcond, if_neg (by simp)]
    simp only [hfind]
    rw [if_pos (show (p.status != PStatus.ringing) = true by simp [bne_iff_ne]; exact hp)]
  · rintro call p rfl hst hfind hp
    show ∃ c', answerCall call uid now = _ ∧ _
    have hcond : (call.status != CStatus.ringing && call.status != CStatus.active) = false := by
      rcases hst with h | h <;> simp [h]
    rw [answerCall, hcond, if_neg (by simp)]
    simp only [hfind]
    rw [if_neg (by simp [hp])]
    refine ⟨_, rfl, ?_, ?_, ?_, rfl, rfl, rfl, rfl⟩
    · show (updateFirst uid _ call.participants).find? _ = _
      rw [updateFirst_find?_self uid
          (fun q => { q with status := PStatus.joined, joined_at := some now })
          (fun _ => rfl),
        show call.participants.find? (fun q => q.user_id == uid) = some p from hfind]
      rfl
    · show (if call.status == CStatus.ringing then CStatus.active else call.status)
        = CStatus.active
      rcases hst with h | h <;> simp [h]
    · intro v hv
      show (updateFirst uid _ call.participants).find? _ = _
      exact updateFirst_find?_other uid v hv
        (fun q => { q with status := PStatus.joined, joined_at := some now })
        (fun _ => rfl) call.participants

/-- A ringing group call: initiator 0 joined, users 1 and 2 ringing. -/
def c4Call : Call :=
  { initiator_id := 0
    call_type := "video"
    call_mode := .group
    status := .ringing
    max_participants := some 3
    started_at := 0
    participants :=
      [ { user_id := 0, role := .initiator, status := .joined, invited_at := 0,
          joined_at := some 0, is_video_enabled := true },
        { user_id := 1, role := .participant, status := .ringing, invited_at := 0,
          is_video_enabled := true },
        { user_id := 2, role := .participant, status := .ringing, invited_at := 0,
          is_video_enabled := true } ] }

/-- Claim C4, witness: the first answer on the concrete ringing group call
promotes the call to active and joins the answering participant. -/
theorem c4_answer_witness :
    (answerCallDb (some c4Call) 1 3).map Call.status = Except.ok CStatus.active ∧
    (answerCallDb (some c4Call) 1 3).map (fun c =>
      (findParticipant c 1).map CallParticipant.joined_at) = Except.ok (some (some 3)) := by
  obtain ⟨-, -, -, -, h5⟩ := c4_answer_call (some c4Call) 1 3
  obtain ⟨c', heq, hfind, hst, -⟩ :=
    h5 c4Call
      { user_id := 1, role := .participant, status := .ringing, invited_at := 0,
        is_video_enabled := true }
      rfl (Or.inl rfl) rfl rfl
  rw [heq]
  constructor
  · show Except.ok c'.status = _
    rw [hst]
  · show Except.ok ((findParticipant c' 1).map CallParticipant.joined_at) = _
    rw [hfind]
    rfl

/-!
Claim C6: declining a group call marks the decliner declined, and the call
row becomes declined with reason all_declined and ended_at set exactly when
every role-participant row is declined or missed after this decline;
otherwise the call row's status and end fields are untouched.
-/

/-- Claim C6: group decline, with the all-declined test deciding whether the
call row is terminated. -/
theorem c6_decline_group (call : Call) (uid : Nat) (reason : String) (now : Nat)
    (p : CallParticipant)
    (hmode : call.call_mode = CallMode.group)
    (hfind : findParticipant call uid = some p)
    (hring : p.status = PStatus.ringing) :
    ∃ c', declineCall call uid reason now = .ok c' ∧
      findParticipant c' uid = some { p with status := PStatus.declined } ∧
      c'.participants
        = updateFirst uid (fun q => { q with status := PStatus.declined })
            call.participants ∧
      (allNonInitiatorsDeclined c'.participants = true →
        c'.status = CStatus.declined ∧ c'.end_reason = some "all_declined" ∧
        c'.ended_at = some now ∧ c'.ended_by = call.ended_by) ∧
      (allNonInitiatorsDeclined c'.participants = false →
        c'.status = call.status ∧ c'.ended_at = call.ended_at ∧
        c'.ended_by = call.ended_by ∧ c'.end_reason = call.end_reason) := by
  have hfp : (updateFirst uid (fun q => { q with status := PStatus.declined })
      call.participants).find? (fun q => q.user_id == uid)
      = some { p with status := PStatus.declined } := by
    rw [updateFirst_find?_self uid (fun q => { q with status := PStatus.declined })
        (fun _ => rfl),
      show call.participants.find? (fun q => q.user_id == uid) = some p from hfind]
    rfl
  rw [declineCall]
  simp only [hfind]
  rw [if_neg (by simp [hring])]
  simp only [hmode]
  by_cases hall : allNonInitiatorsDeclined
      (updateFirst uid (fun q => { q with status := PStatus.declined })
        call.participants) = true
  · rw [if_pos hall]
    refine ⟨_, rfl, hfp, rfl, fun _ => ⟨rfl, rfl, rfl, rfl⟩, fun hfalse => ?_⟩
    rw [show allNonInitiatorsDeclined (updateFirst uid
        (fun q => { q with status := PStatus.declined }) call.participants)
        = false from hfalse] at hall
    cases hall
  · rw [if_neg hall]
    refine ⟨_, rfl, hfp, rfl, fun htrue => absurd htrue hall, fun _ => ⟨rfl, rfl, rfl, rfl⟩⟩

/-- A ringing group call in which user 2 has already declined, so user 1 is
the last undecided invitee. -/
def c6Call : Call :=
  { initiator_id := 0
    call_type := "audio"
    call_mode := .group
    status := .ringing
    max_participants := none
    started_at := 0
    participants :=
      [ { user_id := 0, role := .initiator, status := .joined, invited_at := 0,
          joined_at := some 0 },
        { user_id := 1, role := .participant, status := .ringing, invited_at := 0 },
        { user_id := 2, role := .participant, status := .declined, invited_at := 0 } ] }

/-- Claim C6, witness: the last ringing invitee declines, so the group call
is terminated as declined with reason all_declined. -/
theorem c6_decline_group_witness :
    (declineCall c6Call 1 "busy" 4).map (fun c => (c.status, c.end_reason, c.ended_at))
      = Except.ok (CStatus.declined, some "all_declined", some 4) := by
  obtain ⟨c', heq, -, hparts, htrue, -⟩ :=
    c6_decline_group c6Call 1 "busy" 4
      { user_id := 1, role := .participant, status := .ringing, invited_at := 0 }
      rfl rfl rfl
  obtain ⟨h1, h2, h3, -⟩ := htrue (by rw [hparts]; rfl)
  rw [heq]
  show Except.ok (c'.status, c'.end_reason, c'.ended_at) = _
  rw [h1, h2, h3]

/-- Mapping a user_id-preserving rewrite over the participant list commutes
with the participant lookup. -/
theorem find?_map_user (v : Nat) (g : CallParticipant → CallParticipant)
    (hg : ∀ q, (g q).user_id = q.user_id) (ps : List CallParticipant) :
    (ps.map g).find? (fun q => q.user_id == v)
      = (ps.find? (fun q => q.user_id == v)).map g := by
  induction ps with
  | nil => rfl
  | cons p ps ih =>
    by_cases h : p.user_id = v
    · rw [List.map_cons, List.find?_cons_of_pos _ (by simp [hg, h]),
        List.find?_cons_of_pos _ (by simp [h]), Option.map_some']
    · rw [List.map_cons, List.find?_cons_of_neg _ (by simp [hg, h]),
        List.find?_cons_of_neg _ (by simp [h]), ih]

/-!
Claim C5: end_call. The caller's joined row becomes left with left_at; a
1-on-1 call always ends (ended_at, ended_by, end_reason set) and every other
participant still joined is force-transitioned from joined to left with
left_at stamped, other rows passing through unchanged; a group call ends
with reason all_left exactly when no participant other than the caller is
still joined (the initiator's row counts like any other), and otherwise the
call row is untouched.
-/

/-- Claim C5: the effect of end_call for a caller who holds a participant
row, covering the 1-on-1 and group branches. On the 1-on-1 branch every
other joined row reappears as the same row with status left and left_at set,
every other non-joined row reappears unchanged, and no row of another user
remains joined. -/
theorem c5_end_call (call : Call) (uid now : Nat) (reason : String)
    (p : CallParticipant)
    (hfind : findParticipant call uid = some p) :
    ∃ c', endCall call uid reason now = .ok c' ∧
      (p.status = PStatus.joined →
        findParticipant c' uid
          = some { p with status := PStatus.left, left_at := some now }) ∧
      (call.call_mode = CallMode.oneOnOne →
        c'.status = CStatus.ended ∧ c'.ended_at = some now ∧
        c'.ended_by = some uid ∧ c'.end_reason = some reason ∧
        (∀ q ∈ call.participants, q.user_id ≠ uid → q.status = PStatus.joined →
          ({ q with status := PStatus.left, left_at := some now } : CallParticipant)
            ∈ c'.participants) ∧
        (∀ q ∈ call.participants, q.user_id ≠ uid → q.status ≠ PStatus.joined →
          q ∈ c'.participants) ∧
        (∀ q ∈ c'.participants, q.user_id ≠ uid → q.status ≠ PStatus.joined)) ∧
      (call.call_mode = CallMode.group →
        ((¬ ∃ q ∈ call.participants, q.user_id ≠ uid ∧ q.status = PStatus.joined) →
          c'.status = CStatus.ended ∧ c'.ended_at = some now ∧
          c'.ended_by = some uid ∧ c'.end_reason = some "all_left") ∧
        ((∃ q ∈ call.participants, q.user_id ≠ uid ∧ q.status = PStatus.joined) →
          c'.status = call.status ∧ c'.ended_at = call.ended_at ∧
          c'.ended_by = call.ended_by ∧ c'.end_reason = call.end_reason)) := by
  have hpu : p.user_id = uid := by
    have h := List.find?_some
      (show call.participants.find? (fun q => q.user_id == uid) = some p from hfind)
    simpa using h
  have hiff : ∀ ps : List CallParticipant,
      (ps.any (fun q => q.status == PStatus.joined && q.user_id != uid) = true)
        ↔ (∃ q ∈ ps, q.user_id ≠ uid ∧ q.status = PStatus.joined) := by
    intro ps
    constructor
    · intro h
      rcases List.any_eq_true.mp h with ⟨q, hq, hpq⟩
      simp only [Bool.and_eq_true, beq_iff_eq, bne_iff_ne] at hpq
      exact ⟨q, hq, hpq.2, hpq.1⟩
    · rintro ⟨q, hq, h1, h2⟩
      exact List.any_eq_true.mpr ⟨q, hq, by simp [h1, h2]⟩
  have hforce : ∀ ps : List CallParticipant, ∀ q ∈ ps.map (fun q =>
      if q.user_id != uid && q.status == PStatus.joined then
        { q with status := PStatus.left, left_at := some now }
      else q), q.user_id ≠ uid → q.status ≠ PStatus.joined := by
    intro ps q hq hqu
    rcases List.mem_map.mp hq with ⟨r, hr, rfl⟩
    by_cases hc : (r.user_id != uid && r.status == PStatus.joined) = true
    · rw [if_pos hc]
      simp
    · rw [if_neg hc]
      rw [if_neg hc] at hqu
      intro hrj
      simp only [Bool.and_eq_true, bne_iff_ne, beq_iff_eq, not_and] at hc
      exact hc hqu hrj
  have hforced : ∀ ps : List CallParticipant, ∀ q ∈ ps, q.user_id ≠ uid →
      q.status = PStatus.joined →
      ({ q with status := PStatus.left, left_at := some now } : CallParticipant) ∈
        ps.map (fun q =>
          if q.user_id != uid && q.status == PStatus.joined then
            { q with status := PStatus.left, left_at := some now }
          else q) := by
    intro ps q hq hne hj2
    refine List.mem_map.mpr ⟨q, hq, ?_⟩
    show (if (q.user_id != uid && q.status == PStatus.joined) = true then
        { q with status := PStatus.left, left_at := some now } else q)
      = { q with status := PStatus.left, left_at := some now }
    rw [if_pos (by simp [bne_iff_ne, hne, hj2])]
  have huntouched : ∀ ps : List CallParticipant, ∀ q ∈ ps, q.status ≠ PStatus.joined →
      q ∈ ps.map (fun q =>
        if q.user_id != uid && q.status == PStatus.joined then
          { q with status := PStatus.left, left_at := some now }
        else q) := by
    intro ps q hq hnj
    refine List.mem_map.mpr ⟨q, hq, ?_⟩
    show (if (q.user_id != uid && q.status == PStatus.joined) = true then
        { q with status := PStatus.left, left_at := some now } else q) = q
    rw [if_neg (by simp [hnj])]
  rw [endCall]
  simp only [hfind]
  by_cases hj : p.status = PStatus.joined
  · simp only [hj, beq_self_eq_true, if_true]
    have hfp : (updateFirst uid
        (fun q => { q with status := PStatus.left, left_at := some now })
        call.participants).find? (fun q => q.user_id == uid)
        = some { p with status := PStatus.left, left_at := some now } := by
      rw [updateFirst_find?_self uid
          (fun q => { q with status := PStatus.left, left_at := some now })
          (fun _ => rfl),
        show call.participants.find? (fun q => q.user_id == uid) = some p from hfind]
      rfl
    have hany : (updateFirst uid
        (fun q => { q with status := PStatus.left, left_at := some now })
        call.participants).any (fun q => q.status == PStatus.joined && q.user_id != uid)
        = call.participants.any (fun q => q.status == PStatus.joined && q.user_id != uid) :=
      updateFirst_any_other uid
        (fun q => { q with status := PStatus.left, left_at := some now })
        (fun _ => rfl) (fun q => q.status == PStatus.joined) call.participants
    cases hm : call.call_mode with
    | oneOnOne =>
      refine ⟨_, rfl, fun _ => ?_, fun _ => ⟨rfl, rfl, rfl, rfl,
        fun q hq hne hj2 => hforced _ q
          (updateFirst_mem_of_ne uid
            (fun q => { q with status := PStatus.left, left_at := some now })
            call.participants q hq hne) hne hj2,
        fun q hq hne hnj => huntouched _ q
          (updateFirst_mem_of_ne uid
            (fun q => { q with status := PStatus.left, left_at := some now })
            call.participants q hq hne) hnj,
        hforce _⟩,
        fun hg => CallMode.noConfusion hg⟩
      have hfm := find?_map_user uid
        (fun q => if q.user_id != uid && q.status == PStatus.joined then
          { q with status := PStatus.left, left_at := some now }
        else q)
        (fun q => show (if (q.user_id != uid && q.status == PStatus.joined) = true then
            { q with status := PStatus.left, left_at := some now }
          else q).user_id = q.user_id by split <;> rfl)
        (updateFirst uid (fun q => { q with status := PStatus.left, left_at := some now })
          call.participants)
      rw [hfp, Option.map_some'] at hfm
      simp only [findParticipant]
      rw [hfm]
      simp [hpu]
    | group =>
      by_cases hex : ∃ q ∈ call.participants, q.user_id ≠ uid ∧ q.status = PStatus.joined
      · rw [if_pos (by rw [hany]; exact (hiff call.participants).mpr hex)]
        refine ⟨_, rfl, fun _ => hfp, fun h1 => CallMode.noConfusion h1,
          fun _ => ⟨fun hne => absurd hex hne, fun _ => ⟨rfl, rfl, rfl, rfl⟩⟩⟩
      · rw [if_neg (by rw [hany]; intro h; exact hex ((hiff call.participants).mp h))]
        refine ⟨_, rfl, fun _ => hfp, fun h1 => CallMode.noConfusion h1,
          fun _ => ⟨fun _ => ⟨rfl, rfl, rfl, rfl⟩, fun hx => absurd hx hex⟩⟩
  · simp only [if_neg (show ¬((p.status == PStatus.joined) = true) by
      simp only [beq_iff_eq]; exact hj)]
    cases hm : call.call_mode with
    | oneOnOne =>
      exact ⟨_, rfl, fun hjj => absurd hjj hj, fun _ => ⟨rfl, rfl, rfl, rfl,
        fun q hq hne hj2 => hforced _ q hq hne hj2,
        fun q hq _ hnj => huntouched _ q hq hnj,
        hforce _⟩,
        fun hg => CallMode.noConfusion hg⟩
    | group =>
      by_cases hex : ∃ q ∈ call.participants, q.user_id ≠ uid ∧ q.status = PStatus.joined
      · rw [if_pos ((hiff call.participants).mpr hex)]
        refine ⟨_, rfl, fun hjj => absurd hjj hj, fun h1 => CallMode.noConfusion h1,
          fun _ => ⟨fun hne => absurd hex hne, fun _ => ⟨rfl, rfl, rfl, rfl⟩⟩⟩
      · rw [if_neg (fun h => hex ((hiff call.participants).mp h))]
        refine ⟨_, rfl, fun hjj => absurd hjj hj, fun h1 => CallMode.noConfusion h1,
          fun _ => ⟨fun _ => ⟨rfl, rfl, rfl, rfl⟩, fun hx => absurd hx hex⟩⟩

/-- The Scenario-E group call mid-flight: initiator 0 joined, user 1 joined,
user 2 already left. -/
def c5Call : Call :=
  { initiator_id := 0
    call_type := "audio"
    call_mode := .group
    status := .active
    max_participants := none
    started_at := 0
    participants :=
      [ { user_id := 0, role := .initiator, status := .joined, invited_at := 0,
          joined_at := some 0 },
        { user_id := 1, role := .participant, status := .joined, invited_at := 0,
          joined_at := some 1 },
        { user_id := 2, role := .participant, status := .left, invited_at := 0,
          joined_at := some 1, left_at := some 2 } ] }

/-- Claim C5, witness: user 1 leaves the Scenario-E group call while the
initiator is still joined, so the call stays active with its end fields
untouched (the initiator counts as a joined participant); and on a 1-on-1
call the still-joined other side is force-transitioned to left with left_at
stamped. -/
theorem c5_end_call_witness :
    ((endCall c5Call 1 "user_hangup" 7).map (fun c => (c.status, c.end_reason))
      = Except.ok (CStatus.active, (none : Option String)) ∧
    (endCall c5Call 1 "user_hangup" 7).map (fun c =>
      (findParticipant c 1).map CallParticipant.status)
      = Except.ok (some PStatus.left)) ∧
    (∃ c', endCall c1Call 1 "user_hangup" 9 = .ok c' ∧
      ({ user_id := 0, role := .initiator, status := PStatus.left, invited_at := 0,
          joined_at := some 0, left_at := some 9 } : CallParticipant)
        ∈ c'.participants) := by
  obtain ⟨c', heq, hleft, -, hgroup⟩ :=
    c5_end_call c5Call 1 7 "user_hangup"
      { user_id := 1, role := .participant, status := .joined, invited_at := 0,
        joined_at := some 1 }
      rfl
  obtain ⟨-, hkeep⟩ := hgroup rfl
  obtain ⟨h1, -, -, h2⟩ := hkeep
    ⟨{ user_id := 0, role := .initiator, status := .joined, invited_at := 0,
        joined_at := some 0 },
      by decide, by decide, rfl⟩
  obtain ⟨c2, heq2, -, hone, -⟩ :=
    c5_end_call c1Call 1 9 "user_hangup"
      { user_id := 1, role := .participant, status := .ringing, invited_at := 0 }
      rfl
  obtain ⟨-, -, -, -, hforced2, -⟩ := hone rfl
  refine ⟨?_, c2, heq2, ?_⟩
  · rw [heq]
    refine ⟨?_, ?_⟩
    · show Except.ok (c'.status, c'.end_reason) = _
      rw [h1, h2]
      rfl
    · show Except.ok ((findParticipant c' 1).map CallParticipant.status) = _
      rw [hleft rfl]
      rfl
  · exact hforced2
      { user_id := 0, role := .initiator, status := .joined, invited_at := 0,
        joined_at := some 0 }
      (by decide) (by decide) rfl


/-!
Claim C3: initiate_call. The source checks the users query by comparing the
number of returned rows with len(participant_ids); with the users table
keyed by id (primary key) and no duplicates among the requested ids this
counts exactly the requested active users.
-/

/-- With unique user ids, the rows returned by the users query are in
bijection with the requested ids that are active users. -/
theorem users_query_count (db : CallDb) (pids : List Nat)
    (hu : (db.users.map Prod.fst).Nodup) (hp : pids.Nodup) :
    (db.users.filter (fun u => pids.contains u.1 && u.2)).length
      = (pids.filter (fun pid => isActiveUser db pid)).length := by
  have hA : (db.users.filter (fun u => pids.contains u.1 && u.2)).length
      = ((db.users.filter (fun u => pids.contains u.1 && u.2)).map Prod.fst).length := by
    rw [List.length_map]
  have hAnodup : ((db.users.filter (fun u => pids.contains u.1 && u.2)).map Prod.fst).Nodup :=
    List.Nodup.sublist (List.Sublist.map Prod.fst (List.filter_sublist db.users)) hu
  have hBnodup : (pids.filter (fun pid => isActiveUser db pid)).Nodup :=
    List.Nodup.filter _ hp
  have hmem : ∀ x : Nat,
      x ∈ (db.users.filter (fun u => pids.contains u.1 && u.2)).map Prod.fst
        ↔ x ∈ pids.filter (fun pid => isActiveUser db pid) := by
    intro x
    rw [List.mem_map, List.mem_filter]
    constructor
    · rintro ⟨u, hufil, rfl⟩
      rw [List.mem_filter] at hufil
      obtain ⟨humem, hcond⟩ := hufil
      simp only [Bool.and_eq_true] at hcond
      refine ⟨List.mem_of_elem_eq_true hcond.1, ?_⟩
      exact List.any_eq_true.mpr ⟨u, humem, by simp [hcond.2]⟩
    · rintro ⟨hxmem, hact⟩
      rcases List.any_eq_true.mp hact with ⟨u, humem, hux⟩
      simp only [Bool.and_eq_true, beq_iff_eq] at hux
      refine ⟨u, List.mem_filter.mpr ⟨humem, ?_⟩, hux.1⟩
      simp only [Bool.and_eq_true, hux.2, and_true]
      rw [hux.1]
      exact List.elem_eq_true_of_mem hxmem
  rw [hA, ← List.toFinset_card_of_nodup hAnodup, ← List.toFinset_card_of_nodup hBnodup]
  congr 1
  apply Finset.ext
  intro x
  rw [List.mem_toFinset, List.mem_toFinset]
  exact hmem x

/-- The row-count test of initiate_call succeeds exactly when every requested
id is an active user (under the uniqueness hypotheses). -/
theorem users_query_eq_length_iff (db : CallDb) (pids : List Nat)
    (hu : (db.users.map Prod.fst).Nodup) (hp : pids.Nodup) :
    ((db.users.filter (fun u => pids.contains u.1 && u.2)).length = pids.length)
      ↔ ∀ pid ∈ pids, isActiveUser db pid = true := by
  rw [users_query_count db pids hu hp]
  constructor
  · intro h pid hpid
    have heq := List.Sublist.eq_of_length (List.filter_sublist pids) h
    have := List.filter_eq_self.mp heq
    exact this pid hpid
  · intro h
    rw [List.filter_eq_self.mpr h]

/-- The conflict loop returns none exactly when no requested participant is
already in an active 1-on-1 call with the initiator. -/
theorem findConflict_eq_none_iff (db : CallDb) (i : Nat) (pids : List Nat) :
    findConflict db i pids = none
      ↔ ∀ pid ∈ pids, activeCallBetween db i pid = false := by
  induction pids with
  | nil => simp [findConflict]
  | cons pid rest ih =>
    rw [findConflict]
    by_cases h : activeCallBetween db i pid = true
    · simp [h]
    · have hf : activeCallBetween db i pid = false := by
        cases hb : activeCallBetween db i pid
        · rfl
        · exact absurd hb h
      simp [hf, ih]

/-- A returned conflict names a requested participant who really is in an
active 1-on-1 call with the initiator. -/
theorem findConflict_some (db : CallDb) (i : Nat) (pids : List Nat) (u : Nat)
    (h : findConflict db i pids = some u) :
    u ∈ pids ∧ activeCallBetween db i u = true := by
  induction pids with
  | nil => cases h
  | cons pid rest ih =>
    rw [findConflict] at h
    by_cases hb : activeCallBetween db i pid = true
    · rw [if_pos hb] at h
      cases h
      exact ⟨List.mem_cons_self _ _, hb⟩
    · rw [if_neg hb] at h
      obtain ⟨hmem, hc⟩ := ih h
      exact ⟨List.mem_cons_of_mem _ hmem, hc⟩

/-- Claim C3, amended: with no duplicate ids in participant_ids (the request
schema rejects duplicates before the service runs) and the users table keyed
by id, initiate_call rejects self-calls, missing/inactive participants and
active-call conflicts with the matching errors and otherwise creates the
ringing call with the self-joined initiator row and one ringing participant
row per invitee, group mode exactly when more than one id was given. -/
theorem c3_initiate_amended (db : CallDb) (initiatorId : Nat) (pids : List Nat)
    (callType : String) (maxP : Option Nat) (now : Nat)
    (hu : (db.users.map Prod.fst).Nodup) (hp : pids.Nodup) :
    (initiatorId ∈ pids →
      initiateCall db initiatorId pids callType maxP now = .error .cannotCallSelf) ∧
    (initiatorId ∉ pids → ¬(∀ pid ∈ pids, isActiveUser db pid = true) →
      initiateCall db initiatorId pids callType maxP now = .error .participantsNotFound) ∧
    (initiatorId ∉ pids → (∀ pid ∈ pids, isActiveUser db pid = true) →
      (∃ pid ∈ pids, activeCallBetween db initiatorId pid = true) →
      ∃ u ∈ pids, activeCallBetween db initiatorId u = true ∧
        initiateCall db initiatorId pids callType maxP now
          = .error (.alreadyInActiveCall u)) ∧
    (initiatorId ∉ pids → (∀ pid ∈ pids, isActiveUser db pid = true) →
      (∀ pid ∈ pids, activeCallBetween db initiatorId pid = false) →
      initiateCall db initiatorId pids callType maxP now = .ok
        { initiator_id := initiatorId
          call_type := callType
          call_mode := if pids.length > 1 then CallMode.group else CallMode.oneOnOne
          status := .ringing
          max_participants := if pids.length > 1 then maxP else none
          started_at := now
          participants :=
            { user_id := initiatorId, role := .initiator, status := .joined,
              invited_at := now, joined_at := some now,
              is_video_enabled := callType == "video" } ::
            pids.map (fun pid =>
              { user_id := pid, role := .participant, status := .ringing,
                invited_at := now, is_video_enabled := callType == "video" }) }) := by
  refine ⟨?_, ?_, ?_, ?_⟩
  · intro hmem
    rw [initiateCall, if_pos (List.elem_eq_true_of_mem hmem)]
  · intro hnmem hact
    rw [initiateCall, if_neg (fun hc => hnmem (List.mem_of_elem_eq_true hc)),
      if_pos (by
        simp only [bne_iff_ne, ne_eq]
        exact fun heq => hact ((users_query_eq_length_iff db pids hu hp).mp heq))]
  · intro hnmem hact hex
    have hcount : ((db.users.filter (fun u => pids.contains u.1 && u.2)).length
        != pids.length) = false := by
      simp only [bne_eq_false_iff_eq]
      exact (users_query_eq_length_iff db pids hu hp).mpr hact
    rcases hconf : findConflict db initiatorId pids with - | u
    · exfalso
      obtain ⟨pid, hpid, hc⟩ := hex
      have := (findConflict_eq_none_iff db initiatorId pids).mp hconf pid hpid
      rw [this] at hc
      cases hc
    · obtain ⟨humem, huc⟩ := findConflict_some db initiatorId pids u hconf
      refine ⟨u, humem, huc, ?_⟩
      rw [initiateCall, if_neg (fun hc => hnmem (List.mem_of_elem_eq_true hc)), hcount,
        if_neg (by simp)]
      simp only [hconf]
  · intro hnmem hact hnoconf
    have hcount : ((db.users.filter (fun u => pids.contains u.1 && u.2)).length
        != pids.length) = false := by
      simp only [bne_eq_false_iff_eq]
      exact (users_query_eq_length_iff db pids hu hp).mpr hact
    have hconf : findConflict db initiatorId pids = none :=
      (findConflict_eq_none_iff db initiatorId pids).mpr hnoconf
    rw [initiateCall, if_neg (fun hc => hnmem (List.mem_of_elem_eq_true hc)), hcount,
      if_neg (by simp)]
    simp only [hconf]
    by_cases hlen : pids.length > 1 <;> simp [hlen]

/-- A users table holding the single active user 1. -/
def c3Db : CallDb := { users := [(1, true)], calls := [] }

/-- Claim C3, counterexample: with the duplicate list [1, 1] every stated
precondition of the claim holds (1 is an active user, no self-call, no
conflict), yet initiate_call rejects with the participants-not-found error
instead of creating the call, because the users query returns one row for
the two requested ids. -/
theorem c3_duplicate_ids_cex :
    (0 ∉ ([1, 1] : List Nat)) ∧
    (∀ pid ∈ ([1, 1] : List Nat), isActiveUser c3Db pid = true) ∧
    (∀ pid ∈ ([1, 1] : List Nat), activeCallBetween c3Db 0 pid = false) ∧
    initiateCall c3Db 0 [1, 1] "audio" none 0
      = Except.error CallError.participantsNotFound := by
  exact ⟨by decide, by decide, by decide, rfl⟩

/-- A users table holding the active users 1 and 2. -/
def c3Db2 : CallDb := { users := [(1, true), (2, true)], calls := [] }

/-- Claim C3, witness: a two-invitee initiate creates a ringing group call
with three participant rows. -/
theorem c3_initiate_witness :
    (initiateCall c3Db2 0 [1, 2] "audio" (some 5) 0).map
        (fun c => (c.status, c.call_mode, c.participants.length))
      = Except.ok (CStatus.ringing, CallMode.group, 3) := by
  obtain ⟨-, -, -, h4⟩ :=
    c3_initiate_amended c3Db2 0 [1, 2] "audio" (some 5) 0 (by decide) (by decide)
  rw [h4 (by decide) (by decide) (by decide)]
  rfl

/-!
Claim C7: the max-participants gate of invite_to_call. The data-model
invariant (spec section 3) keeps max_participants at least 2 when set, which
makes the source's truthiness test on the column equivalent to the column
being set. In the Except embedding the error branch creates no participant
and no invitation row, which is the no-rows-on-rejection part of the claim.
-/

/-- Claim C7: on an active group call whose inviter is joined and whose
max_participants is set (and at least 2, the data-model invariant), the
invite is rejected with the exceeds-max error exactly when the number of
existing participant rows of any status plus the invited count exceeds the
bound. -/
theorem c7_invite_max_check (db : CallDb) (call : Call) (inviter : Nat)
    (userIds : List Nat) (now : Nat) (m : Nat) (ip : CallParticipant)
    (hmode : call.call_mode = CallMode.group)
    (hstatus : call.status = CStatus.active)
    (hip : findParticipant call inviter = some ip)
    (hjoined : ip.status = PStatus.joined)
    (hmax : call.max_participants = some m)
    (hm : 2 ≤ m) :
    inviteToCall db call inviter userIds now = .error (.exceedsMaxParticipants m)
      ↔ call.participants.length + userIds.length > m := by
  rw [inviteToCall, if_neg (by simp [hmode]), if_neg (by simp [hstatus])]
  simp only [hip]
  rw [if_neg (by simp [hjoined])]
  simp only [hmax, Option.getD_some]
  have hmne : (m != 0) = true := by
    simp only [bne_iff_ne, ne_eq]
    omega
  by_cases hgt : call.participants.length + userIds.length > m
  · rw [if_pos (by simp [hmne, hgt])]
    exact iff_of_true rfl hgt
  · rw [if_neg (by simp [hgt])]
    refine iff_of_false ?_ hgt
    by_cases hq : ((db.users.filter (fun u => userIds.contains u.1 && u.2)).length
        != userIds.length) = true
    · rw [if_pos hq]
      intro h
      simp at h
    · rw [if_neg hq]
      intro h
      simp at h

/-- The Scenario-D call: active group call with max_participants 3 already
satisfied by the three existing rows. -/
def c7Call : Call :=
  { initiator_id := 0
    call_type := "audio"
    call_mode := .group
    status := .active
    max_participants := some 3
    started_at := 0
    participants :=
      [ { user_id := 0, role := .initiator, status := .joined, invited_at := 0,
          joined_at := some 0 },
        { user_id := 1, role := .participant, status := .joined, invited_at := 0,
          joined_at := some 1 },
        { user_id := 2, role := .participant, status := .ringing, invited_at := 0 } ] }

/-- A users table in which the to-be-invited user 4 exists and is active. -/
def c7Db : CallDb := { users := [(4, true)], calls := [] }

/-- Claim C7, witness: inviting a fourth user to the full Scenario-D call is
rejected with the exceeds-max-participants error. -/
theorem c7_invite_witness :
    inviteToCall c7Db c7Call 0 [4] 9
      = Except.error (CallError.exceedsMaxParticipants 3) := by
  have h := c7_invite_max_check c7Db c7Call 0 [4] 9 3
    { user_id := 0, role := .initiator, status := .joined, invited_at := 0,
      joined_at := some 0 }
    rfl rfl rfl rfl rfl (by decide)
  exact h.mpr (by decide)

/-!
Claim C2: the activation invariant. The call state machine is closed under
initiate/answer/decline/end; everJoined is the history (ghost) flag of the
claim: it records that some role-participant row reached joined while the
call was not yet terminal. Participants only ever reach joined inside
answer_call, which is therefore the only transition that can set the flag.
-/

/-- A call together with the claim's history flag: some non-initiator
participant has reached joined while the call was not terminal. -/
structure GCall where
  call : Call
  everJoined : Bool
deriving DecidableEq, Repr

/-- answer_call lifted to the ghost state: the flag is raised exactly when
the answering participant (the only row that changes to joined) has role
participant and the call was not yet terminal. -/
def answerGhost (g : GCall) (userId now : Nat) : Option GCall :=
  match answerCall g.call userId now with
  | .error _ => none
  | .ok c' =>
    let joinedNow :=
      match findParticipant g.call userId with
      | some p => p.role == Role.participant && !g.call.status.isTerminal
      | none => false
    some { call := c', everJoined := g.everJoined || joinedNow }

/-- The call states reachable through the orchestrator operations of the
claim: a successful initiate, then any successful answer/decline/end. -/
inductive ReachableCall : GCall → Prop where
  | init (db : CallDb) (initiatorId : Nat) (pids : List Nat) (callType : String)
      (maxP : Option Nat) (now : Nat) (c : Call)
      (h : initiateCall db initiatorId pids callType maxP now = .ok c) :
      ReachableCall { call := c, everJoined := false }
  | answer (g g' : GCall) (uid now : Nat) (hg : ReachableCall g)
      (h : answerGhost g uid now = some g') : ReachableCall g'
  | decline (g : GCall) (uid : Nat) (reason : String) (now : Nat) (c' : Call)
      (hg : ReachableCall g) (h : declineCall g.call uid reason now = .ok c') :
      ReachableCall { call := c', everJoined := g.everJoined }
  | endc (g : GCall) (uid : Nat) (reason : String) (now : Nat) (c' : Call)
      (hg : ReachableCall g) (h : endCall g.call uid reason now = .ok c') :
      ReachableCall { call := c', everJoined := g.everJoined }

/-- The inductive invariant: active implies the flag, the flag rules out
ringing, and every ringing row has role participant. -/
def CallInv (g : GCall) : Prop :=
  (g.call.status = CStatus.active → g.everJoined = true) ∧
  (g.everJoined = true → g.call.status ≠ CStatus.ringing) ∧
  (∀ p ∈ g.call.participants, p.status = PStatus.ringing → p.role = Role.participant)

/-- Inversion of a successful answer_call. -/
theorem answerCall_inv (call : Call) (uid now : Nat) (c' : Call)
    (h : answerCall call uid now = .ok c') :
    (call.status = CStatus.ringing ∨ call.status = CStatus.active) ∧
    ∃ p, findParticipant call uid = some p ∧ p.status = PStatus.ringing ∧
      c' = { call with
        participants := updateFirst uid
          (fun q => { q with status := PStatus.joined, joined_at := some now })
          call.participants
        status := if call.status == CStatus.ringing then CStatus.active
          else call.status } := by
  rw [answerCall] at h
  by_cases h1 : (call.status != CStatus.ringing && call.status != CStatus.active) = true
  · rw [if_pos h1] at h
    cases h
  · rw [if_neg h1] at h
    have hst : call.status = CStatus.ringing ∨ call.status = CStatus.active := by
      by_cases hr : call.status = CStatus.ringing
      · exact Or.inl hr
      · by_cases ha : call.status = CStatus.active
        · exact Or.inr ha
        · exact absurd (by simp [bne_iff_ne, hr, ha]) h1
    rcases hfp : findParticipant call uid with - | p
    · simp only [hfp] at h
      cases h
    · simp only [hfp] at h
      by_cases hps : (p.status != PStatus.ringing) = true
      · rw [if_pos hps] at h
        cases h
      · rw [if_neg hps] at h
        have hpr : p.status = PStatus.ringing := by
          by_contra hne
          exact hps (by simp [bne_iff_ne, hne])
        cases h
        exact ⟨hst, p, rfl, hpr, rfl⟩

/-- Shape of a successful decline_call: the status either stays or becomes
declined, and the participants are the caller's row rewritten to declined. -/
theorem declineCall_shape (call : Call) (uid : Nat) (reason : String) (now : Nat)
    (c' : Call) (h : declineCall call uid reason now = .ok c') :
    (c'.status = call.status ∨ c'.status = CStatus.declined) ∧
    c'.participants
      = updateFirst uid (fun q => { q with status := PStatus.declined })
          call.participants := by
  rw [declineCall] at h
  rcases hfp : findParticipant call uid with - | p
  · simp only [hfp] at h
    cases h
  · simp only [hfp] at h
    by_cases hps : (p.status != PStatus.ringing) = true
    · rw [if_pos hps] at h
      cases h
    · rw [if_neg hps] at h
      cases hmode : call.call_mode <;> simp only [hmode] at h
      · cases h
        exact ⟨Or.inr rfl, rfl⟩
      · split at h
        · cases h
          exact ⟨Or.inr rfl, rfl⟩
        · cases h
          exact ⟨Or.inl rfl, rfl⟩

/-- Shape of a successful end_call: the status either stays or becomes
ended, and every resulting row comes from an original row with the same role
whose status it either keeps or replaces by left. -/
theorem endCall_shape (call : Call) (uid : Nat) (reason : String) (now : Nat)
    (c' : Call) (h : endCall call uid reason now = .ok c') :
    (c'.status = call.status ∨ c'.status = CStatus.ended) ∧
    ∀ q ∈ c'.participants, ∃ r ∈ call.participants,
      q.role = r.role ∧ (q.status = r.status ∨ q.status = PStatus.left) := by
  rw [endCall] at h
  rcases hfp : findParticipant call uid with - | p
  · simp only [hfp] at h
    cases h
  · simp only [hfp] at h
    generalize hP : (if (p.status == PStatus.joined) = true then
        updateFirst uid (fun q => { q with status := PStatus.left, left_at := some now })
          call.participants
      else call.participants) = parts at h
    have hparts : ∀ q ∈ parts, ∃ r ∈ call.participants,
        q.role = r.role ∧ (q.status = r.status ∨ q.status = PStatus.left) := by
      intro q hq
      rw [← hP] at hq
      split at hq
      · rcases updateFirst_mem _ _ _ _ hq with hmem | ⟨r, hr, -, rfl⟩
        · exact ⟨q, hmem, rfl, Or.inl rfl⟩
        · exact ⟨r, hr, rfl, Or.inr rfl⟩
      · exact ⟨q, hq, rfl, Or.inl rfl⟩
    cases hmode : call.call_mode <;> simp only [hmode] at h
    · cases h
      refine ⟨Or.inr rfl, ?_⟩
      intro q hq
      rcases List.mem_map.mp hq with ⟨r0, hr0, rfl⟩
      obtain ⟨r, hr, hrole, hstat⟩ := hparts r0 hr0
      by_cases hc : (r0.user_id != uid && r0.status == PStatus.joined) = true
      · rw [if_pos hc]
        exact ⟨r, hr, hrole, Or.inr rfl⟩
      · rw [if_neg hc]
        exact ⟨r, hr, hrole, hstat⟩
    · by_cases hb : (parts.any
          (fun q => q.status == PStatus.joined && q.user_id != uid)) = true
      · rw [if_pos hb] at h
        cases h
        exact ⟨Or.inl rfl, hparts⟩
      · rw [if_neg hb] at h
        cases h
        exact ⟨Or.inr rfl, hparts⟩

/-- The invariant holds in every reachable call state. -/
theorem reachable_callInv (g : GCall) (hg : ReachableCall g) : CallInv g := by
  induction hg with
  | init db initiatorId pids callType maxP now c h =>
    rw [initiateCall] at h
    split at h
    · cases h
    · split at h
      · cases h
      · split at h
        · cases h
        · cases h
          refine ⟨?_, ?_, ?_⟩
          · intro habs
            cases habs
          · intro habs
            cases habs
          · intro q hq hqring
            rcases List.mem_cons.mp hq with rfl | hq2
            · cases hqring
            · rcases List.mem_map.mp hq2 with ⟨pid, -, rfl⟩
              rfl
  | answer g g' uid now hg h ih =>
    rw [answerGhost] at h
    cases heq : answerCall g.call uid now with
    | error e =>
      rw [heq] at h
      cases h
    | ok c' =>
      obtain ⟨hst, p, hfp, hpr, hc'⟩ := answerCall_inv g.call uid now c' heq
      rw [heq] at h
      simp only [hfp] at h
      cases h
      obtain ⟨ih1, ih2, ih3⟩ := ih
      have hrole : p.role = Role.participant :=
        ih3 p (List.mem_of_find?_eq_some hfp) hpr
      subst hc'
      refine ⟨?_, ?_, ?_⟩
      · intro _
        rcases hst with hr | ha
        · have hterm : g.call.status.isTerminal = false := by
            rw [hr]
            rfl
          simp [hrole, hterm]
        · simp [ih1 ha]
      · intro _
        show (if (g.call.status == CStatus.ringing) = true then CStatus.active
          else g.call.status) ≠ CStatus.ringing
        rcases hst with hr | ha
        · simp [hr]
        · simp [ha]
      · intro q hq hqring
        rcases updateFirst_mem _ _ _ _ hq with hmem | ⟨r, hr, -, rfl⟩
        · exact ih3 q hmem hqring
        · cases hqring
  | decline g uid reason now c' hg h ih =>
    obtain ⟨ih1, ih2, ih3⟩ := ih
    obtain ⟨hst, hparts⟩ := declineCall_shape g.call uid reason now c' h
    refine ⟨?_, ?_, ?_⟩
    · intro hact
      rcases hst with he | he <;> rw [he] at hact
      · exact ih1 hact
      · cases hact
    · intro hghost
      rcases hst with he | he <;> rw [he]
      · exact ih2 hghost
      · intro habs
        cases habs
    · intro q hq hqring
      rw [show ({ call := c', everJoined := g.everJoined } : GCall).call.participants
          = c'.participants from rfl, hparts] at hq
      rcases updateFirst_mem _ _ _ _ hq with hmem | ⟨r, hr, -, rfl⟩
      · exact ih3 q hmem hqring
      · cases hqring
  | endc g uid reason now c' hg h ih =>
    obtain ⟨ih1, ih2, ih3⟩ := ih
    obtain ⟨hst, hparts⟩ := endCall_shape g.call uid reason now c' h
    refine ⟨?_, ?_, ?_⟩
    · intro hact
      rcases hst with he | he <;> rw [he] at hact
      · exact ih1 hact
      · cases hact
    · intro hghost
      rcases hst with he | he <;> rw [he]
      · exact ih2 hghost
      · intro habs
        cases habs
    · intro q hq hqring
      obtain ⟨r, hr, hrole, hstat⟩ := hparts q hq
      rcases hstat with hs | hs
      · rw [hrole]
        exact ih3 r hr (hs ▸ hqring)
      · rw [hs] at hqring
        cases hqring

/-- Claim C2, amended: in every reachable call state, the call is active if
and only if some role-participant row has ever reached joined while the call
was not yet terminal AND the call has not since moved to a terminal status.
The unamended claim drops the second conjunct and fails on ended calls. -/
theorem c2_active_iff_amended (g : GCall) (hg : ReachableCall g) :
    g.call.status = CStatus.active
      ↔ (g.everJoined = true ∧ g.call.status.isTerminal = false) := by
  obtain ⟨h1, h2, -⟩ := reachable_callInv g hg
  constructor
  · intro hact
    refine ⟨h1 hact, ?_⟩
    rw [hact]
    rfl
  · rintro ⟨hghost, hterm⟩
    cases hs : g.call.status
    · exact absurd hs (h2 hghost)
    · rfl
    all_goals rw [hs] at hterm; cases hterm

/-- The database for the counterexample trace: two active users. -/
def cexDb : CallDb := { users := [(0, true), (1, true)], calls := [] }

/-- The call created by initiate(0, [1], audio) at time 0. -/
def cexCall0 : Call :=
  { initiator_id := 0
    call_type := "audio"
    call_mode := .oneOnOne
    status := .ringing
    max_participants := none
    started_at := 0
    participants :=
      [ { user_id := 0, role := .initiator, status := .joined, invited_at := 0,
          joined_at := some 0 },
        { user_id := 1, role := .participant, status := .ringing, invited_at := 0 } ] }

/-- The ghost state right after initiate. -/
def cexG0 : GCall := { call := cexCall0, everJoined := false }

/-- The ghost state after user 1 answers at time 1: active, flag raised. -/
def cexG1 : GCall :=
  { call :=
      { initiator_id := 0
        call_type := "audio"
        call_mode := .oneOnOne
        status := .active
        max_participants := none
        started_at := 0
        participants :=
          [ { user_id := 0, role := .initiator, status := .joined, invited_at := 0,
              joined_at := some 0 },
            { user_id := 1, role := .participant, status := .joined, invited_at := 0,
              joined_at := some 1 } ] }
    everJoined := true }

/-- The ghost state after user 1 hangs up at time 2: the 1-on-1 call is
ended and both rows are left, while the flag stays raised. -/
def cexG2 : GCall :=
  { call :=
      { initiator_id := 0
        call_type := "audio"
        call_mode := .oneOnOne
        status := .ended
        max_participants := none
        started_at := 0
        ended_at := some 2
        ended_by := some 1
        end_reason := some "user_hangup"
        participants :=
          [ { user_id := 0, role := .initiator, status := .left, invited_at := 0,
              joined_at := some 0, left_at := some 2 },
            { user_id := 1, role := .participant, status := .left, invited_at := 0,
              joined_at := some 1, left_at := some 2 } ] }
    everJoined := true }

/-- Claim C2, counterexample: the trace initiate, answer, end reaches a call
whose non-initiator participant did reach joined while the call was not yet
terminal, but whose status is ended, not active — so the claimed
biconditional fails on terminal states. -/
theorem c2_ended_call_cex :
    ReachableCall cexG2 ∧ cexG2.everJoined = true
      ∧ cexG2.call.status ≠ CStatus.active := by
  refine ⟨?_, rfl, by intro h; cases h⟩
  have h0 : ReachableCall cexG0 :=
    ReachableCall.init cexDb 0 [1] "audio" none 0 cexCall0 rfl
  have h1 : ReachableCall cexG1 :=
    ReachableCall.answer cexG0 cexG1 1 1 h0 rfl
  exact ReachableCall.endc cexG1 1 "user_hangup" 2 cexG2.call h1 rfl

/-- Claim C2, witness: the amended biconditional applied to the reachable
state right after the answer, where the call really is active. -/
theorem c2_active_iff_witness :
    cexG1.call.status = CStatus.active
      ↔ (cexG1.everJoined = true ∧ cexG1.call.status.isTerminal = false) := by
  have h0 : ReachableCall cexG0 :=
    ReachableCall.init cexDb 0 [1] "audio" none 0 cexCall0 rfl
  have h1 : ReachableCall cexG1 :=
    ReachableCall.answer cexG0 cexG1 1 1 h0 rfl
  exact c2_active_iff_amended cexG1 h1

/-!
The connection registry (app/services/websocket_manager.py). Users, calls
and websocket handles are Nat; the three dictionaries become functions into
Option, so that a missing key (none) stays distinct from an empty set; the
Python sets become duplicate-free lists. A signaling message is its dict of
string fields. Whether send_text raises on a given socket is supplied as a
fails oracle; send functions return the updated registry together with the
list of (connection, message) deliveries that succeeded.
-/

/-- A JSON signaling message, as its list of string fields. -/
abbrev Message := List (String × String)

/-- Dict assignment on a message. -/
def msgSet (m : Message) (k v : String) : Message :=
  (k, v) :: m.filter (fun kv => kv.1 != k)

/-- The in-memory state of ConnectionManager. -/
structure ConnectionManager where
  active_connections : Nat → Option (List Nat)
  call_participants : Nat → Option (List Nat)
  connection_to_user : Nat → Option Nat

/-- The freshly constructed manager: all three dicts empty. -/
def emptyManager : ConnectionManager :=
  { active_connections := fun _ => none
    call_participants := fun _ => none
    connection_to_user := fun _ => none }

/-- ConnectionManager.connect: add the websocket under the user's device
set (creating it when absent) and record the reverse mapping. -/
def connect (s : ConnectionManager) (ws uid : Nat) : ConnectionManager :=
  let conns := (s.active_connections uid).getD []
  { s with
    active_connections := fun v =>
      if v = uid then some (if ws ∈ conns then conns else ws :: conns)
      else s.active_connections v
    connection_to_user := fun w => if w = ws then some uid else s.connection_to_user w }

/-- ConnectionManager.disconnect: drop the websocket from its owner's set,
delete the user entry when it empties, and clear the reverse mapping; a
websocket that was never registered is ignored. -/
def disconnect (s : ConnectionManager) (ws : Nat) : ConnectionManager :=
  match s.connection_to_user ws with
  | none => s
  | some uid =>
    { s with
      active_connections := fun v =>
        if v = uid then
          match s.active_connections uid with
          | none => none
          | some conns =>
            let conns' := conns.filter (fun c => c != ws)
            if conns'.isEmpty then none else some conns'
        else s.active_connections v
      connection_to_user := fun w => if w = ws then none else s.connection_to_user w }

/-- ConnectionManager.add_to_call: insert the user into the call's
membership set, creating the set when absent. -/
def add_to_call (s : ConnectionManager) (callId uid : Nat) : ConnectionManager :=
  let cur := (s.call_participants callId).getD []
  { s with
    call_participants := fun c =>
      if c = callId then some (if uid ∈ cur then cur else uid :: cur)
      else s.call_participants c }

/-- ConnectionManager.remove_from_call: discard the user from the call's
membership set and delete the entry when it empties. -/
def remove_from_call (s : ConnectionManager) (callId uid : Nat) : ConnectionManager :=
  match s.call_participants callId with
  | none => s
  | some us =>
    let us' := us.filter (fun u => u != uid)
    { s with
      call_participants := fun c =>
        if c = callId then (if us'.isEmpty then none else some us')
        else s.call_participants c }

/-- ConnectionManager.send_personal_message: deliver to every connection of
the user whose send does not fail, then disconnect every failed one. -/
def send_personal_message (s : ConnectionManager) (msg : Message) (uid : Nat)
    (fails : Nat → Bool) : ConnectionManager × List (Nat × Message) :=
  match s.active_connections uid with
  | none => (s, [])
  | some conns =>
    ((conns.filter fails).foldl (fun t c => disconnect t c) s,
      (conns.filter (fun c => !fails c)).map (fun c => (c, msg)))

/-- One iteration of the send_to_call loop over the membership set. -/
def sendToCallStep (msg : Message) (excludeUserId : Option Nat) (fails : Nat → Bool)
    (acc : ConnectionManager × List (Nat × Message)) (u : Nat) :
    ConnectionManager × List (Nat × Message) :=
  if (match excludeUserId with | some e => u == e | none => false) then acc
  else
    let r := send_personal_message acc.1 msg u fails
    (r.1, acc.2 ++ r.2)

/-- ConnectionManager.send_to_call: personal delivery to every user of the
call's membership set except the excluded one. -/
def send_to_call (s : ConnectionManager) (msg : Message) (callId : Nat)
    (excludeUserId : Option Nat) (fails : Nat → Bool) :
    ConnectionManager × List (Nat × Message) :=
  match s.call_participants callId with
  | none => (s, [])
  | some users => users.foldl (sendToCallStep msg excludeUserId fails) (s, [])

/-- ConnectionManager.send_to_peer: deliver to the recipient only when both
peers are in the call's membership set, after stamping the sender and call
ids into the message; otherwise drop silently. -/
def send_to_peer (s : ConnectionManager) (msg : Message)
    (fromUserId toUserId callId : Nat) (fails : Nat → Bool) :
    ConnectionManager × List (Nat × Message) :=
  match s.call_participants callId with
  | none => (s, [])
  | some users =>
    if users.contains fromUserId && users.contains toUserId then
      send_personal_message s
        (msgSet (msgSet msg "from_user_id" (toString fromUserId))
          "call_id" (toString callId))
        toUserId fails
    else (s, [])

/-- ConnectionManager.is_user_online: the user has a device set and it is
non-empty. -/
def is_user_online (s : ConnectionManager) (uid : Nat) : Bool :=
  match s.active_connections uid with
  | none => false
  | some conns => conns.length != 0

/-- A list membership test helper for the drop cases of send_to_peer. -/
theorem contains_eq_false_of_not_mem {l : List Nat} {a : Nat} (h : a ∉ l) :
    l.contains a = false := by
  cases hb : l.contains a
  · rfl
  · exact absurd (List.mem_of_elem_eq_true hb) h

/-!
Claim C8: send_to_peer delivers (to every connection of the recipient whose
send succeeds) exactly when both peers are in the call's membership set, and
otherwise returns with no delivery to anyone and the registry untouched; the
function returns normally in the drop case, so no error reaches the sender.
-/

/-- Claim C8: the routing guarantee of send_to_peer. -/
theorem c8_send_to_peer (s : ConnectionManager) (msg : Message)
    (fromU toU callId : Nat) (fails : Nat → Bool) :
    (∀ users, s.call_participants callId = some users →
      fromU ∈ users → toU ∈ users →
      (send_to_peer s msg fromU toU callId fails).2
        = (((s.active_connections toU).getD []).filter (fun c => !fails c)).map
            (fun c => (c, msgSet (msgSet msg "from_user_id" (toString fromU))
              "call_id" (toString callId)))) ∧
    (s.call_participants callId = none →
      send_to_peer s msg fromU toU callId fails = (s, [])) ∧
    (∀ users, s.call_participants callId = some users →
      (fromU ∉ users ∨ toU ∉ users) →
      send_to_peer s msg fromU toU callId fails = (s, [])) := by
  refine ⟨?_, ?_, ?_⟩
  · intro users husers hf ht
    rw [send_to_peer]
    simp only [husers]
    rw [if_pos (by
      simp only [Bool.and_eq_true]
      exact ⟨List.elem_eq_true_of_mem hf, List.elem_eq_true_of_mem ht⟩)]
    rw [send_personal_message]
    cases hac : s.active_connections toU
    · rfl
    · rfl
  · intro hnone
    rw [send_to_peer]
    simp only [hnone]
  · intro users husers hdrop
    rw [send_to_peer]
    simp only [husers]
    rw [if_neg (by
      simp only [Bool.and_eq_true, not_and]
      intro hf ht
      rcases hdrop with h | h
      · exact h (List.mem_of_elem_eq_true hf)
      · exact h (List.mem_of_elem_eq_true ht))]

/-- A registry with user 1 on socket 10, user 2 on socket 20, and call 7
holding both users in its membership set. -/
def c8Mgr : ConnectionManager :=
  add_to_call (add_to_call (connect (connect emptyManager 10 1) 20 2) 7 1) 7 2

/-- The offer frame payload used by the witness. -/
def c8Msg : Message := [("type", "offer"), ("sdp", "v")]

/-- Claim C8, witness: with both users in call 7, the message reaches
exactly user 2's connection, stamped with sender and call ids; with user 3
outside the call the same send is dropped without touching the registry. -/
theorem c8_send_to_peer_witness :
    (send_to_peer c8Mgr c8Msg 1 2 7 (fun _ => false)).2
      = [(20, [("call_id", "7"), ("from_user_id", "1"), ("type", "offer"),
          ("sdp", "v")])] ∧
    send_to_peer c8Mgr c8Msg 1 3 7 (fun _ => false) = (c8Mgr, []) := by
  obtain ⟨h1, -, h3⟩ := c8_send_to_peer c8Mgr c8Msg 1 2 7 (fun _ => false)
  obtain ⟨-, -, h3'⟩ := c8_send_to_peer c8Mgr c8Msg 1 3 7 (fun _ => false)
  constructor
  · rw [h1 [2, 1] rfl (by decide) (by decide)]
    rfl
  · exact h3' [2, 1] rfl (Or.inr (by decide))

/-!
The signaling relay (app/api/v1/websocket_signaling.py,
handle_signaling_message and the per-type handlers). A frame's parsed
fields: an Option layer for presence (a missing or falsy field is none) and,
for the two identifier fields, an inner Option for whether the string parses
as a UUID (some none models a present but malformed identifier). The media
flags of media-state-update ride along in the broadcast payload and are
elided; no claim depends on them.
-/

/-- An inbound signaling frame, as read by handle_signaling_message. -/
structure Frame where
  msgType : Option String
  callId : Option (Option Nat)
  toUserId : Option (Option Nat)
  sdp : Option String
  candidate : Option String

/-- What the relay emits while handling one frame: an error reply on the
sender's own socket, or a delivery to some connection. -/
inductive SignalEvent where
  | errorToSender (reason : String)
  | delivered (conn : Nat) (msg : Message)

/-- handle_offer: require sdp, then point-to-point if to_user_id was given,
else call-wide mesh broadcast excluding the sender. -/
def handle_offer (s : ConnectionManager) (fromU : Nat) (toU : Option Nat)
    (callId : Nat) (m : Frame) (fails : Nat → Bool) :
    ConnectionManager × List (Nat × Message) :=
  match m.sdp with
  | none => (s, [])
  | some sdpv =>
    let offerMsg : Message :=
      [("type", "offer"), ("call_id", toString callId),
        ("from_user_id", toString fromU), ("sdp", sdpv)]
    match toU with
    | some t => send_to_peer s offerMsg fromU t callId fails
    | none => send_to_call s offerMsg callId (some fromU) fails

/-- handle_answer: as handle_offer with the answer type. -/
def handle_answer (s : ConnectionManager) (fromU : Nat) (toU : Option Nat)
    (callId : Nat) (m : Frame) (fails : Nat → Bool) :
    ConnectionManager × List (Nat × Message) :=
  match m.sdp with
  | none => (s, [])
  | some sdpv =>
    let answerMsg : Message :=
      [("type", "answer"), ("call_id", toString callId),
        ("from_user_id", toString fromU), ("sdp", sdpv)]
    match toU with
    | some t => send_to_peer s answerMsg fromU t callId fails
    | none => send_to_call s answerMsg callId (some fromU) fails

/-- handle_ice_candidate: require candidate data, then route as offers do. -/
def handle_ice_candidate (s : ConnectionManager) (fromU : Nat) (toU : Option Nat)
    (callId : Nat) (m : Frame) (fails : Nat → Bool) :
    ConnectionManager × List (Nat × Message) :=
  match m.candidate with
  | none => (s, [])
  | some cand =>
    let iceMsg : Message :=
      [("type", "ice-candidate"), ("call_id", toString callId),
        ("from_user_id", toString fromU), ("candidate", cand)]
    match toU with
    | some t => send_to_peer s iceMsg fromU t callId fails
    | none => send_to_call s iceMsg callId (some fromU) fails

/-- handle_media_state_update: call-wide broadcast excluding the sender. -/
def handle_media_state_update (s : ConnectionManager) (fromU callId : Nat)
    (fails : Nat → Bool) : ConnectionManager × List (Nat × Message) :=
  send_to_call s
    [("type", "media-state-update"), ("call_id", toString callId),
      ("user_id", toString fromU)]
    callId (some fromU) fails

/-- The type dispatch of handle_signaling_message, run on the state that
already holds the sender in the call's membership set (the add_to_call that
precedes the dispatch in the source). -/
def dispatch_signaling (s1 : ConnectionManager) (uid : Nat) (ty : String)
    (callId : Nat) (toU : Option Nat) (m : Frame) (fails : Nat → Bool) :
    ConnectionManager × List SignalEvent :=
  if ty == "offer" then
    let r := handle_offer s1 uid toU callId m fails
    (r.1, r.2.map (fun d => SignalEvent.delivered d.1 d.2))
  else if ty == "answer" then
    let r := handle_answer s1 uid toU callId m fails
    (r.1, r.2.map (fun d => SignalEvent.delivered d.1 d.2))
  else if ty == "ice-candidate" then
    let r := handle_ice_candidate s1 uid toU callId m fails
    (r.1, r.2.map (fun d => SignalEvent.delivered d.1 d.2))
  else if ty == "media-state-update" then
    let r := handle_media_state_update s1 uid callId fails
    (r.1, r.2.map (fun d => SignalEvent.delivered d.1 d.2))
  else if ty == "join-call" then
    let s2 := add_to_call s1 callId uid
    let r := send_to_call s2
      [("type", "participant-joined"), ("call_id", toString callId),
        ("user_id", toString uid)]
      callId (some uid) fails
    (r.1, r.2.map (fun d => SignalEvent.delivered d.1 d.2))
  else if ty == "leave-call" then
    let s2 := remove_from_call s1 callId uid
    let r := send_to_call s2
      [("type", "participant-left"), ("call_id", toString callId),
        ("user_id", toString uid)]
      callId (some uid) fails
    (r.1, r.2.map (fun d => SignalEvent.delivered d.1 d.2))
  else
    (s1, [.errorToSender ("Unknown message type: " ++ ty)])

/-- handle_signaling_message: reject frames missing type or call_id or with
a malformed identifier, then always add the sender to the call's membership
set before dispatching on the frame type. -/
def handle_signaling_message (s : ConnectionManager) (uid : Nat) (m : Frame)
    (fails : Nat → Bool) : ConnectionManager × List SignalEvent :=
  match m.msgType, m.callId with
  | none, _ => (s, [.errorToSender "Missing required fields: type, call_id"])
  | some _, none => (s, [.errorToSender "Missing required fields: type, call_id"])
  | some ty, some cidParse =>
    match cidParse with
    | none => (s, [.errorToSender "Invalid UUID format"])
    | some callId =>
      match m.toUserId with
      | some none => (s, [.errorToSender "Invalid UUID format"])
      | toParse =>
        let toU : Option Nat :=
          match toParse with
          | some (some t) => some t
          | _ => none
        dispatch_signaling (add_to_call s callId uid) uid ty callId toU m fails

/-! Delivery never touches the per-call membership dictionary: disconnect
and the send functions only rewrite the two connection dictionaries. -/

theorem disconnect_call_participants (s : ConnectionManager) (ws : Nat) :
    (disconnect s ws).call_participants = s.call_participants := by
  rw [disconnect]
  cases s.connection_to_user ws <;> rfl

theorem foldl_disconnect_call_participants (ds : List Nat) :
    ∀ s : ConnectionManager,
    (ds.foldl (fun t c => disconnect t c) s).call_participants = s.call_participants := by
  induction ds with
  | nil => intro s; rfl
  | cons d ds ih =>
    intro s
    rw [List.foldl_cons, ih, disconnect_call_participants]

theorem send_personal_message_call_participants (s : ConnectionManager)
    (msg : Message) (uid : Nat) (fails : Nat → Bool) :
    ((send_personal_message s msg uid fails).1).call_participants
      = s.call_participants := by
  rw [send_personal_message]
  cases hac : s.active_connections uid
  · rfl
  · exact foldl_disconnect_call_participants _ s

theorem foldl_sendToCallStep_call_participants (msg : Message) (ex : Option Nat)
    (fails : Nat → Bool) (users : List Nat) :
    ∀ acc : ConnectionManager × List (Nat × Message),
    ((users.foldl (sendToCallStep msg ex fails) acc).1).call_participants
      = acc.1.call_participants := by
  induction users with
  | nil => intro acc; rfl
  | cons u us ih =>
    intro acc
    rw [List.foldl_cons]
    rw [ih]
    unfold sendToCallStep
    split
    · rfl
    · exact send_personal_message_call_participants acc.1 msg u fails

theorem send_to_call_call_participants (s : ConnectionManager) (msg : Message)
    (callId : Nat) (ex : Option Nat) (fails : Nat → Bool) :
    ((send_to_call s msg callId ex fails).1).call_participants
      = s.call_participants := by
  rw [send_to_call]
  cases hcp : s.call_participants callId
  · rfl
  · exact foldl_sendToCallStep_call_participants msg ex fails _ (s, [])

theorem send_to_peer_call_participants (s : ConnectionManager) (msg : Message)
    (fromU toU callId : Nat) (fails : Nat → Bool) :
    ((send_to_peer s msg fromU toU callId fails).1).call_participants
      = s.call_participants := by
  rw [send_to_peer]
  cases hcp : s.call_participants callId with
  | none => rfl
  | some users =>
    show (if (users.contains fromU && users.contains toU) = true then
        send_personal_message s
          (msgSet (msgSet msg "from_user_id" (toString fromU))
            "call_id" (toString callId)) toU fails
      else (s, [])).1.call_participants = s.call_participants
    by_cases hb : (users.contains fromU && users.contains toU) = true
    · rw [if_pos hb]
      exact send_personal_message_call_participants s _ toU fails
    · rw [if_neg hb]

theorem handle_offer_call_participants (s : ConnectionManager) (fromU : Nat)
    (toU : Option Nat) (callId : Nat) (m : Frame) (fails : Nat → Bool) :
    ((handle_offer s fromU toU callId m fails).1).call_participants
      = s.call_participants := by
  rw [handle_offer]
  cases m.sdp
  · rfl
  · cases toU
    · exact send_to_call_call_participants s _ callId (some fromU) fails
    · exact send_to_peer_call_participants s _ fromU _ callId fails

theorem handle_answer_call_participants (s : ConnectionManager) (fromU : Nat)
    (toU : Option Nat) (callId : Nat) (m : Frame) (fails : Nat → Bool) :
    ((handle_answer s fromU toU callId m fails).1).call_participants
      = s.call_participants := by
  rw [handle_answer]
  cases m.sdp
  · rfl
  · cases toU
    · exact send_to_call_call_participants s _ callId (some fromU) fails
    · exact send_to_peer_call_participants s _ fromU _ callId fails

theorem handle_ice_candidate_call_participants (s : ConnectionManager) (fromU : Nat)
    (toU : Option Nat) (callId : Nat) (m : Frame) (fails : Nat → Bool) :
    ((handle_ice_candidate s fromU toU callId m fails).1).call_participants
      = s.call_participants := by
  rw [handle_ice_candidate]
  cases m.candidate
  · rfl
  · cases toU
    · exact send_to_call_call_participants s _ callId (some fromU) fails
    · exact send_to_peer_call_participants s _ fromU _ callId fails

/-- After add_to_call the user really is in the call's membership set. -/
theorem add_to_call_mem (s : ConnectionManager) (callId uid : Nat) :
    ∃ us, (add_to_call s callId uid).call_participants callId = some us ∧
      uid ∈ us := by
  refine ⟨if uid ∈ (s.call_participants callId).getD []
      then (s.call_participants callId).getD []
      else uid :: (s.call_participants callId).getD [], ?_, ?_⟩
  · show (if callId = callId then some _ else _) = some _
    rw [if_pos rfl]
  · split
    · assumption
    · exact List.mem_cons_self _ _

/-- After remove_from_call the user is gone from the call's membership set
(when the set still exists at all). -/
theorem remove_from_call_not_mem (s : ConnectionManager) (callId uid : Nat) :
    ∀ us, (remove_from_call s callId uid).call_participants callId = some us →
      uid ∉ us := by
  intro us h
  rw [remove_from_call] at h
  cases hcp : s.call_participants callId with
  | none =>
    simp only [hcp] at h
    cases h
  | some us0 =>
    simp only [hcp] at h
    simp only [if_true] at h
    split at h
    · cases h
    · cases h
      intro hmem
      have := (List.mem_filter.mp hmem).2
      simp at this

/-!
Claim C9: the relay adds the sender to the call's membership set before
routing every well-formed frame. The claimed consequence — that after
handling any frame the sender is a member — fails for leave-call frames,
which remove the sender again right after the initial add; for every other
frame type it holds.
-/

/-- On every dispatch branch other than leave-call, membership established
before the dispatch survives it (a join-call even re-adds the sender). -/
theorem dispatch_mem (s1 : ConnectionManager) (uid : Nat) (ty : String)
    (callId : Nat) (toU : Option Nat) (m : Frame) (fails : Nat → Bool)
    (hne : ty ≠ "leave-call") (us : List Nat)
    (hus : s1.call_participants callId = some us) (hmem : uid ∈ us) :
    ∃ us', ((dispatch_signaling s1 uid ty callId toU m fails).1).call_participants callId
      = some us' ∧ uid ∈ us' := by
  unfold dispatch_signaling
  by_cases h1 : (ty == "offer") = true
  · rw [if_pos h1]
    refine ⟨us, ?_, hmem⟩
    simp only [handle_offer_call_participants]
    exact hus
  rw [if_neg h1]
  by_cases h2 : (ty == "answer") = true
  · rw [if_pos h2]
    refine ⟨us, ?_, hmem⟩
    simp only [handle_answer_call_participants]
    exact hus
  rw [if_neg h2]
  by_cases h3 : (ty == "ice-candidate") = true
  · rw [if_pos h3]
    refine ⟨us, ?_, hmem⟩
    simp only [handle_ice_candidate_call_participants]
    exact hus
  rw [if_neg h3]
  by_cases h4 : (ty == "media-state-update") = true
  · rw [if_pos h4]
    refine ⟨us, ?_, hmem⟩
    show ((handle_media_state_update s1 uid callId fails).1).call_participants callId
      = some us
    rw [handle_media_state_update]
    simp only [send_to_call_call_participants]
    exact hus
  rw [if_neg h4]
  by_cases h5 : (ty == "join-call") = true
  · rw [if_pos h5]
    obtain ⟨us', hus', hmem'⟩ := add_to_call_mem s1 callId uid
    refine ⟨us', ?_, hmem'⟩
    simp only [send_to_call_call_participants]
    exact hus'
  rw [if_neg h5]
  by_cases h6 : (ty == "leave-call") = true
  · exact absurd (by simpa using h6) hne
  rw [if_neg h6]
  exact ⟨us, hus, hmem⟩

/-- The leave-call dispatch removes the sender from the membership set right
after the relay's initial add. -/
theorem dispatch_leave_not_mem (s1 : ConnectionManager) (uid callId : Nat)
    (toU : Option Nat) (m : Frame) (fails : Nat → Bool) :
    ∀ us, ((dispatch_signaling s1 uid "leave-call" callId toU m fails).1).call_participants
        callId = some us → uid ∉ us := by
  unfold dispatch_signaling
  rw [if_neg (by decide), if_neg (by decide), if_neg (by decide), if_neg (by decide),
    if_neg (by decide), if_pos (by decide)]
  intro us h
  simp only [send_to_call_call_participants] at h
  exact remove_from_call_not_mem s1 callId uid us h

/-- Claim C9, amended: every well-formed frame (a type and parseable ids)
first adds the sender to the call's membership set, so after handling any
frame other than leave-call the sender is a member; a leave-call frame
removes the sender again after that initial add, so afterwards the sender is
not a member. -/
theorem c9_lazy_membership_amended (s : ConnectionManager) (uid : Nat) (m : Frame)
    (fails : Nat → Bool) (ty : String) (cid : Nat)
    (hty : m.msgType = some ty) (hcid : m.callId = some (some cid))
    (hto : m.toUserId ≠ some none) :
    (ty ≠ "leave-call" →
      ∃ us, ((handle_signaling_message s uid m fails).1).call_participants cid
        = some us ∧ uid ∈ us) ∧
    (ty = "leave-call" →
      ∀ us, ((handle_signaling_message s uid m fails).1).call_participants cid
        = some us → uid ∉ us) := by
  obtain ⟨mt, mc, mto, msdp, mcand⟩ := m
  have hmt : mt = some ty := hty
  have hmc : mc = some (some cid) := hcid
  subst hmt
  subst hmc
  obtain ⟨us, hus, hmem⟩ := add_to_call_mem s cid uid
  cases mto with
  | none =>
    constructor
    · intro hne
      exact dispatch_mem (add_to_call s cid uid) uid ty cid none
        ⟨some ty, some (some cid), none, msdp, mcand⟩ fails hne us hus hmem
    · intro hl
      subst hl
      exact dispatch_leave_not_mem (add_to_call s cid uid) uid cid none
        ⟨some "leave-call", some (some cid), none, msdp, mcand⟩ fails
  | some t2 =>
    cases t2 with
    | none => exact absurd rfl hto
    | some t =>
      constructor
      · intro hne
        exact dispatch_mem (add_to_call s cid uid) uid ty cid (some t)
          ⟨some ty, some (some cid), some (some t), msdp, mcand⟩ fails hne us hus hmem
      · intro hl
        subst hl
        exact dispatch_leave_not_mem (add_to_call s cid uid) uid cid (some t)
          ⟨some "leave-call", some (some cid), some (some t), msdp, mcand⟩ fails

/-- A well-formed leave-call frame on call 7. -/
def c9Frame : Frame :=
  { msgType := some "leave-call", callId := some (some 7), toUserId := none,
    sdp := none, candidate := none }

/-- Claim C9, counterexample: handling a well-formed leave-call frame from
user 1 leaves user 1 outside the membership set of call 7 (the whole entry
is gone), contradicting the claim that after any inbound frame the sender is
a member. -/
theorem c9_leave_call_cex :
    c9Frame.msgType = some "leave-call" ∧
    c9Frame.callId = some (some 7) ∧
    ((handle_signaling_message emptyManager 1 c9Frame (fun _ => false)).1).call_participants 7
      = none := by
  exact ⟨rfl, rfl, rfl⟩

/-- A well-formed join-call frame on call 7. -/
def c9Frame2 : Frame :=
  { msgType := some "join-call", callId := some (some 7), toUserId := none,
    sdp := none, candidate := none }

/-- Claim C9, witness: after a join-call frame the sender is in the call's
membership set. -/
theorem c9_lazy_membership_witness :
    ∃ us, ((handle_signaling_message emptyManager 1 c9Frame2 (fun _ => false)).1).call_participants 7
      = some us ∧ 1 ∈ us := by
  obtain ⟨h1, -⟩ := c9_lazy_membership_amended emptyManager 1 c9Frame2 (fun _ => false)
    "join-call" 7 rfl rfl (by simp [c9Frame2])
  exact h1 (by decide)

/-!
Claim C10: the registry invariant. A websocket sits in a user's device set
exactly when connection_to_user maps it to that user, and no stored device
set is empty; connect (of a fresh socket), disconnect, and the pruning that
send_personal_message performs on failed sends all preserve it, which makes
is_user_online agree with having at least one registered connection.
-/

/-- The two-part registry invariant of the claim. -/
def ConnInv (s : ConnectionManager) : Prop :=
  (∀ u ws, (∃ conns, s.active_connections u = some conns ∧ ws ∈ conns)
    ↔ s.connection_to_user ws = some u) ∧
  (∀ u conns, s.active_connections u = some conns → conns ≠ [])

/-- connect preserves the invariant when the websocket is fresh (not
registered to a different user) — the endpoint registers each accepted
socket exactly once. -/
theorem connInv_connect (s : ConnectionManager) (ws uid : Nat) (hInv : ConnInv s)
    (hfresh : ∀ u', s.connection_to_user ws = some u' → u' = uid) :
    ConnInv (connect s ws uid) := by
  obtain ⟨h1, h2⟩ := hInv
  constructor
  · intro u w
    simp only [connect]
    by_cases hw : w = ws
    · subst hw
      rw [if_pos rfl]
      by_cases hu : u = uid
      · subst hu
        rw [if_pos rfl]
        constructor
        · intro _
          rfl
        · intro _
          refine ⟨_, rfl, ?_⟩
          by_cases hmem : w ∈ (s.active_connections u).getD []
          · rw [if_pos hmem]
            exact hmem
          · rw [if_neg hmem]
            exact List.mem_cons_self _ _
      · rw [if_neg hu]
        constructor
        · rintro ⟨conns, hc, hm⟩
          have := (h1 u w).mp ⟨conns, hc, hm⟩
          exact absurd (hfresh u this) hu
        · intro hsome
          cases hsome
          exact absurd rfl hu
    · rw [if_neg hw]
      by_cases hu : u = uid
      · subst hu
        rw [if_pos rfl]
        constructor
        · rintro ⟨conns, hc, hm⟩
          cases hc
          have hm0 : w ∈ (s.active_connections u).getD [] := by
            by_cases hmem : ws ∈ (s.active_connections u).getD []
            · rw [if_pos hmem] at hm
              exact hm
            · rw [if_neg hmem] at hm
              rcases List.mem_cons.mp hm with rfl | h
              · exact absurd rfl hw
              · exact h
          cases hac : s.active_connections u with
          | none =>
            rw [hac] at hm0
            cases hm0
          | some conns0 =>
            rw [hac] at hm0
            exact (h1 u w).mp ⟨conns0, hac, hm0⟩
        · intro hctu
          obtain ⟨conns0, hac, hm0⟩ := (h1 u w).mpr hctu
          refine ⟨_, rfl, ?_⟩
          rw [hac]
          simp only [Option.getD_some]
          by_cases hmem : ws ∈ conns0
          · rw [if_pos hmem]
            exact hm0
          · rw [if_neg hmem]
            exact List.mem_cons_of_mem _ hm0
      · rw [if_neg hu]
        exact h1 u w
  · intro u conns hc
    simp only [connect] at hc
    by_cases hu : u = uid
    · rw [if_pos hu] at hc
      cases hc
      by_cases hmem : ws ∈ (s.active_connections uid).getD []
      · rw [if_pos hmem]
        exact List.ne_nil_of_mem hmem
      · rw [if_neg hmem]
        exact List.cons_ne_nil _ _
    · rw [if_neg hu] at hc
      exact h2 u conns hc

/-- disconnect preserves the invariant. -/
theorem connInv_disconnect (s : ConnectionManager) (ws : Nat) (hInv : ConnInv s) :
    ConnInv (disconnect s ws) := by
  obtain ⟨h1, h2⟩ := hInv
  cases hctu : s.connection_to_user ws with
  | none =>
    rw [disconnect, hctu]
    exact ⟨h1, h2⟩
  | some u0 =>
    obtain ⟨conns0, hac0, hwm⟩ := (h1 u0 ws).mpr hctu
    constructor
    · intro u w
      simp only [disconnect, hctu, hac0]
      by_cases hw : w = ws
      · subst hw
        rw [if_pos rfl]
        constructor
        · rintro ⟨conns, hc, hm⟩
          exfalso
          by_cases hu : u = u0
          · rw [if_pos hu] at hc
            by_cases hemp : ((conns0.filter (fun c => c != w)).isEmpty) = true
            · rw [if_pos hemp] at hc
              cases hc
            · rw [if_neg hemp] at hc
              cases hc
              have := (List.mem_filter.mp hm).2
              simp at this
          · rw [if_neg hu] at hc
            have := (h1 u w).mp ⟨conns, hc, hm⟩
            rw [hctu] at this
            cases this
            exact absurd rfl hu
        · intro habs
          cases habs
      · rw [if_neg hw]
        by_cases hu : u = u0
        · subst hu
          rw [if_pos rfl]
          constructor
          · rintro ⟨conns, hc, hm⟩
            by_cases hemp : ((conns0.filter (fun c => c != ws)).isEmpty) = true
            · rw [if_pos hemp] at hc
              cases hc
            · rw [if_neg hemp] at hc
              cases hc
              exact (h1 u w).mp ⟨conns0, hac0, (List.mem_filter.mp hm).1⟩
          · intro hctuw
            obtain ⟨conns, hac, hm⟩ := (h1 u w).mpr hctuw
            rw [hac0] at hac
            cases hac
            have hmF : w ∈ conns0.filter (fun c => c != ws) :=
              List.mem_filter.mpr ⟨hm, by simp [hw]⟩
            have hne : ((conns0.filter (fun c => c != ws)).isEmpty) = false := by
              cases hFl : conns0.filter (fun c => c != ws)
              · rw [hFl] at hmF
                cases hmF
              · rfl
            refine ⟨conns0.filter (fun c => c != ws), ?_, hmF⟩
            rw [hne, if_neg (by simp)]
        · rw [if_neg hu]
          exact h1 u w
    · intro u conns hc
      simp only [disconnect, hctu, hac0] at hc
      by_cases hu : u = u0
      · rw [if_pos hu] at hc
        by_cases hemp : ((conns0.filter (fun c => c != ws)).isEmpty) = true
        · rw [if_pos hemp] at hc
          cases hc
        · rw [if_neg hemp] at hc
          cases hc
          intro hnil
          rw [hnil] at hemp
          exact hemp rfl
      · rw [if_neg hu] at hc
        exact h2 u conns hc

/-- The dead-connection sweep of send_personal_message preserves the
invariant: it is a fold of disconnect. -/
theorem connInv_foldl_disconnect (ds : List Nat) :
    ∀ s : ConnectionManager, ConnInv s →
      ConnInv (ds.foldl (fun t c => disconnect t c) s) := by
  induction ds with
  | nil => intro s hInv; exact hInv
  | cons d ds ih =>
    intro s hInv
    rw [List.foldl_cons]
    exact ih (disconnect s d) (connInv_disconnect s d hInv)

/-- send_personal_message preserves the invariant. -/
theorem connInv_send_personal (s : ConnectionManager) (msg : Message) (uid : Nat)
    (fails : Nat → Bool) (hInv : ConnInv s) :
    ConnInv ((send_personal_message s msg uid fails).1) := by
  rw [send_personal_message]
  cases hac : s.active_connections uid
  · exact hInv
  · exact connInv_foldl_disconnect _ s hInv

/-- Under the invariant, is_user_online answers whether some websocket is
registered to the user. -/
theorem is_user_online_iff (s : ConnectionManager) (u : Nat) (hInv : ConnInv s) :
    is_user_online s u = true ↔ ∃ w, s.connection_to_user w = some u := by
  obtain ⟨h1, h2⟩ := hInv
  rw [is_user_online]
  cases hac : s.active_connections u with
  | none =>
    constructor
    · intro habs
      cases habs
    · rintro ⟨w, hw⟩
      obtain ⟨conns, hac2, -⟩ := (h1 u w).mpr hw
      rw [hac] at hac2
      cases hac2
  | some conns =>
    constructor
    · intro hlen
      have hnil : conns ≠ [] := h2 u conns hac
      obtain ⟨w, hw⟩ := List.exists_mem_of_ne_nil conns hnil
      exact ⟨w, (h1 u w).mp ⟨conns, hac, hw⟩⟩
    · rintro ⟨w, hw⟩
      obtain ⟨conns2, hac2, hm⟩ := (h1 u w).mpr hw
      rw [hac] at hac2
      cases hac2
      have : conns ≠ [] := List.ne_nil_of_mem hm
      simp [List.length_eq_zero, this]

/-- The reverse-map shape of disconnect. -/
theorem disconnect_ctu (s : ConnectionManager) (ws w : Nat) :
    (disconnect s ws).connection_to_user w
      = match s.connection_to_user ws with
        | none => s.connection_to_user w
        | some _ => if w = ws then none else s.connection_to_user w := by
  rw [disconnect]
  cases s.connection_to_user ws <;> rfl

/-- Disconnecting a user's only registered connection reports the user
offline. -/
theorem offline_after_last_disconnect (s : ConnectionManager) (ws u : Nat)
    (hInv : ConnInv s) (hlast : ∀ w, s.connection_to_user w = some u → w = ws) :
    is_user_online (disconnect s ws) u = false := by
  have hInv' := connInv_disconnect s ws hInv
  cases hb : is_user_online (disconnect s ws) u
  · rfl
  · exfalso
    obtain ⟨w, hw⟩ := (is_user_online_iff (disconnect s ws) u hInv').mp hb
    rw [disconnect_ctu] at hw
    cases hctu : s.connection_to_user ws with
    | none =>
      rw [hctu] at hw
      have := hlast w hw
      subst this
      rw [hctu] at hw
      cases hw
    | some u0 =>
      rw [hctu] at hw
      by_cases hwws : w = ws
      · rw [if_pos hwws] at hw
        cases hw
      · rw [if_neg hwws] at hw
        exact hwws (hlast w hw)

/-- Disconnecting every connection in a covering list of a user's
registered sockets reports the user offline. -/
theorem offline_foldl_disconnect (u : Nat) (ds : List Nat) :
    ∀ s : ConnectionManager, ConnInv s →
      (∀ w, s.connection_to_user w = some u → w ∈ ds) →
      is_user_online (ds.foldl (fun t c => disconnect t c) s) u = false := by
  induction ds with
  | nil =>
    intro s hInv hcov
    cases hb : is_user_online s u
    · exact hb
    · exfalso
      obtain ⟨w, hw⟩ := (is_user_online_iff s u hInv).mp hb
      cases hcov w hw
  | cons d ds ih =>
    intro s hInv hcov
    rw [List.foldl_cons]
    refine ih (disconnect s d) (connInv_disconnect s d hInv) ?_
    intro w hw
    rw [disconnect_ctu] at hw
    cases hctu : s.connection_to_user d with
    | none =>
      rw [hctu] at hw
      rcases List.mem_cons.mp (hcov w hw) with rfl | h
      · rw [hctu] at hw
        cases hw
      · exact h
    | some u0 =>
      rw [hctu] at hw
      by_cases hwd : w = d
      · rw [if_pos hwd] at hw
        cases hw
      · rw [if_neg hwd] at hw
        rcases List.mem_cons.mp (hcov w hw) with rfl | h
        · exact absurd rfl hwd
        · exact h

/-- When every connection of the user fails, the pruning inside
send_personal_message leaves the user offline. -/
theorem offline_after_prune_all (s : ConnectionManager) (msg : Message) (u : Nat)
    (fails : Nat → Bool) (hInv : ConnInv s)
    (hall : ∀ c ∈ (s.active_connections u).getD [], fails c = true) :
    is_user_online ((send_personal_message s msg u fails).1) u = false := by
  rw [send_personal_message]
  cases hac : s.active_connections u with
  | none =>
    rw [is_user_online, hac]
  | some conns =>
    refine offline_foldl_disconnect u (conns.filter fails) s hInv ?_
    intro w hw
    obtain ⟨conns2, hac2, hm⟩ := (hInv.1 u w).mpr hw
    rw [hac] at hac2
    cases hac2
    refine List.mem_filter.mpr ⟨hm, ?_⟩
    refine hall w ?_
    rw [hac]
    exact hm

/-- Claim C10: the registry maintains, across connect of a fresh socket,
disconnect, and dead-connection pruning, that a websocket is in a user's
device set exactly when connection_to_user points it at that user and that
stored sets are non-empty; consequently is_user_online reports exactly
whether some connection is registered, and a user whose last connection
disconnects or is pruned on a failed send is immediately offline. -/
theorem c10_registry_invariant (s : ConnectionManager) (ws u : Nat) (msg : Message)
    (fails : Nat → Bool) (hInv : ConnInv s) :
    ((∀ u', s.connection_to_user ws = some u' → u' = u) → ConnInv (connect s ws u)) ∧
    ConnInv (disconnect s ws) ∧
    ConnInv ((send_personal_message s msg u fails).1) ∧
    (is_user_online s u = true ↔ ∃ w, s.connection_to_user w = some u) ∧
    ((∀ w, s.connection_to_user w = some u → w = ws) →
      is_user_online (disconnect s ws) u = false) ∧
    ((∀ c ∈ (s.active_connections u).getD [], fails c = true) →
      is_user_online ((send_personal_message s msg u fails).1) u = false) :=
  ⟨fun hf => connInv_connect s ws u hInv hf,
    connInv_disconnect s ws hInv,
    connInv_send_personal s msg u fails hInv,
    is_user_online_iff s u hInv,
    fun hl => offline_after_last_disconnect s ws u hInv hl,
    fun ha => offline_after_prune_all s msg u fails hInv ha⟩

/-- Claim C10, witness: registering socket 5 for user 1 keeps the invariant
and the user goes offline the moment that only socket disconnects. -/
theorem c10_registry_witness :
    ConnInv (connect emptyManager 5 1) ∧
    is_user_online (connect emptyManager 5 1) 1 = true ∧
    is_user_online (disconnect (connect emptyManager 5 1) 5) 1 = false := by
  have hEmpty : ConnInv emptyManager := by
    constructor
    · intro u ws
      constructor
      · rintro ⟨conns, hc, -⟩
        cases hc
      · intro h
        cases h
    · intro u conns hc
      cases hc
  obtain ⟨h1, -, -, -, -, -⟩ :=
    c10_registry_invariant emptyManager 5 1 [] (fun _ => false) hEmpty
  have hconn : ConnInv (connect emptyManager 5 1) :=
    h1 (fun u' h => Option.noConfusion h)
  obtain ⟨-, -, -, -, h5, -⟩ :=
    c10_registry_invariant (connect emptyManager 5 1) 5 1 [] (fun _ => false) hconn
  refine ⟨hconn, rfl, ?_⟩
  refine h5 ?_
  intro w hw
  by_cases hw5 : w = 5
  · exact hw5
  · exfalso
    simp only [connect, emptyManager] at hw
    rw [if_neg hw5] at hw
    cases hw

end CallBackend
